import Mathlib

/-!
Verification development for the dyego front end (lexer, recursive-descent
parser, tree printer and type checker). Every definition below is a shallow
embedding of the corresponding TypeScript source: `src/token.ts`,
`src/lexer.ts`, `src/ast.ts`, `src/parser.ts`, `src/ast_printer.ts` and
`src/checker.ts`. Loops of the source are modelled as fuel-indexed recursive
functions; running out of fuel is reported through a dedicated marker that is
distinct from the error channel of the source (a thrown JS `Error` /
`CheckerError`), so that non-termination of the source is observable as
exhaustion at every finite budget. JS numbers that the lexer decodes are
modelled as exact rationals; the checker only ever asks whether such a value
is an integer (`Number.isInteger`), which becomes a denominator test.
-/

namespace Dyego

/-- Token kinds, from `src/token.ts` (`export enum TokenType`). -/
inductive TokenType where
  | LEFT_PAREN | RIGHT_PAREN
  | LEFT_BRACE | RIGHT_BRACE
  | LEFT_BRACKET | RIGHT_BRACKET
  | COMMA | DOT | COLON | SEMICOLON
  | SLASH | STAR | PERCENT
  | PIPE
  | MINUS | ARROW
  | PLUS
  | BANG | BANG_EQUAL
  | EQUAL | EQUAL_EQUAL
  | GREATER | GREATER_EQUAL
  | LESS | LESS_EQUAL
  | QUESTION | QUESTION_COLON | QUESTION_DOT
  | IDENTIFIER
  | STRING
  | INTEGER
  | FLOAT
  | VAL | VAR | VALUE | FUN
  | IF | ELSE | WHEN
  | FOR | WHILE | BREAK | CONTINUE
  | AS | TRAIT | USE | RETURN
  | TRUE | FALSE | NULL | THIS
  | AND | OR
  | EOF
deriving DecidableEq, Repr

/-- A decoded JS number, kept as the exact fraction `num / den` that the
decimal literal denotes (`den` is a power of ten, `1` for integer literals).
The JS engine stores the nearest binary double; on the short decimals the
lexer produces, every question the pipeline asks of the value
(`Number.isInteger`, `toString`) agrees with this exact fraction. -/
structure JsNum where
  num : Int
  den : Nat
deriving DecidableEq, Repr

/-- `Number.isInteger` of the represented value. -/
def JsNum.isInt (v : JsNum) : Bool := v.num % (v.den : Int) == 0

/-- The decoded literal slot of a token (`Token.literal : any` in
`src/token.ts`); the value `null` that `addToken` stores by default is its
own constructor. -/
inductive LitValue where
  | num (v : JsNum)
  | str (s : String)
  | bool (b : Bool)
  | null
deriving DecidableEq, Repr

/-- `Token` from `src/token.ts`. -/
structure Token where
  type : TokenType
  lexeme : String
  literal : LitValue
  line : Nat
  column : Nat
deriving DecidableEq, Repr

/-- Type nodes from `src/ast.ts` (`NamedType`, `UnionType`, `ArrayType`,
`OptionalType`, `GenericType`). -/
inductive TypeNode where
  | named (name : Token) (generics : List TypeNode)
  | union (types : List TypeNode)
  | arr (elementType : TypeNode)
  | opt (innerType : TypeNode)
  | generic (name : Token)

mutual
/-- Expression nodes from `src/ast.ts`. Call arguments are pairs of an
optional name token and a value (`{ name?: Token, value: Expr }`); `when`
entries are pairs of a condition list and a body (`WhenEntry`). -/
inductive Expr where
  | assign (name : Token) (value : Expr)
  | binary (left : Expr) (operator : Token) (right : Expr)
  | call (callee : Expr) (paren : Token) (args : List (Option Token × Expr))
  | get (object : Expr) (name : Token) (isSafe : Bool)
  | grouping (expression : Expr)
  | literal (value : LitValue)
  | logical (left : Expr) (operator : Token) (right : Expr)
  | setE (object : Expr) (name : Token) (value : Expr) (isSafe : Bool)
  | thisE (keyword : Token)
  | unary (operator : Token) (right : Expr)
  | varE (name : Token)
  | block (statements : List Stmt)
  | ifE (condition : Expr) (thenBranch : Expr) (elseBranch : Option Expr)
  | whenE (subject : Option Expr) (entries : List (List Expr × Expr))
      (elseBranch : Option Expr)
  | lambda (params : List (Token × Option TypeNode)) (body : Expr)
  | arrayLit (elements : List Expr)
  | indexGet (object : Expr) (index : Expr)
  | indexSet (object : Expr) (index : Expr) (value : Expr)
  | propagate (expression : Expr) (operator : Token)
  | cast (expression : Expr) (targetType : TypeNode) (operator : Token)

/-- Statement nodes from `src/ast.ts`. Fields of a `value` declaration are
`(name, type, isMutable)` triples. -/
inductive Stmt where
  | expression (e : Expr)
  | funct (f : FunctionDecl)
  | ret (keyword : Token) (value : Option Expr)
  | var (name : Token) (initializer : Expr) (type : Option TypeNode)
      (isMutable : Bool)
  | whileS (condition : Expr) (body : Expr)
  | forS (v : Token) (iterable : Expr) (body : Expr)
  | breakS (keyword : Token) (label : Option Token)
  | continueS (keyword : Token) (label : Option Token)
  | value (name : Token) (fields : List (Token × TypeNode × Bool))
      (methods : List FunctionDecl) (generics : List Token)
  | use (path : List Token) (items : List Token) (isTrait : Bool)
  | trait (name : Token) (methods : List FunctionDecl)

/-- `FunctionStmt` from `src/ast.ts`, kept separate because the checker's
environment stores whole function declarations as callable bindings. -/
inductive FunctionDecl where
  | mk (name : Token) (params : List (Token × TypeNode))
      (returnType : Option TypeNode) (body : Expr) (generics : List Token)
      (isMutating : Bool)
end

def FunctionDecl.name : FunctionDecl → Token
  | .mk n _ _ _ _ _ => n

def FunctionDecl.params : FunctionDecl → List (Token × TypeNode)
  | .mk _ p _ _ _ _ => p

def FunctionDecl.returnType : FunctionDecl → Option TypeNode
  | .mk _ _ r _ _ _ => r

def FunctionDecl.body : FunctionDecl → Expr
  | .mk _ _ _ b _ _ => b

def FunctionDecl.generics : FunctionDecl → List Token
  | .mk _ _ _ _ g _ => g

def FunctionDecl.isMutating : FunctionDecl → Bool
  | .mk _ _ _ _ _ m => m

mutual
/-- Structural equality of type nodes, all fields included. This models the
`JSON.stringify(target) === JSON.stringify(source)` fallback of
`Checker.isTypeCompatible` (`src/checker.ts`): the JSON serialisations of two
type-node object graphs coincide exactly when the trees are equal field by
field. -/
def typeNodeEq : TypeNode → TypeNode → Bool
  | .named n g, .named n' g' => n == n' && typeListEq g g'
  | .union ts, .union ts' => typeListEq ts ts'
  | .arr a, .arr b => typeNodeEq a b
  | .opt a, .opt b => typeNodeEq a b
  | .generic n, .generic n' => n == n'
  | _, _ => false

def typeListEq : List TypeNode → List TypeNode → Bool
  | [], [] => true
  | a :: as, b :: bs => typeNodeEq a b && typeListEq as bs
  | _, _ => false
end

namespace Lexer

/-- Mutable scanner state of `Lexer` (`src/lexer.ts`): the source, the tokens
produced so far, the `start`/`current` cursors, and position bookkeeping. -/
structure LState where
  source : List Char
  tokens : List Token
  start : Nat
  current : Nat
  line : Nat
  column : Nat
  startColumn : Nat
deriving Repr

def charAt (src : List Char) (i : Nat) : Char := src.getD i '\x00'

def isAtEnd (s : LState) : Bool := s.source.length ≤ s.current

/-- `advance()`: bump the column, return the character and move `current`. -/
def advance (s : LState) : Char × LState :=
  (charAt s.source s.current,
   { s with column := s.column + 1, current := s.current + 1 })

/-- `match(expected)` of the lexer. -/
def matchC (expected : Char) (s : LState) : Bool × LState :=
  if isAtEnd s then (false, s)
  else if charAt s.source s.current ≠ expected then (false, s)
  else (true, { s with current := s.current + 1, column := s.column + 1 })

def peekC (s : LState) : Char :=
  if isAtEnd s then '\x00' else charAt s.source s.current

def peekNextC (s : LState) : Char :=
  if s.source.length ≤ s.current + 1 then '\x00'
  else charAt s.source (s.current + 1)

def isDigitC (c : Char) : Bool := '0' ≤ c && c ≤ '9'

def isAlphaC (c : Char) : Bool :=
  ('a' ≤ c && c ≤ 'z') || ('A' ≤ c && c ≤ 'Z') || c == '_'

def isAlphaNumericC (c : Char) : Bool := isAlphaC c || isDigitC c

/-- `source.substring(a, b)`. -/
def substr (s : LState) (a b : Nat) : String :=
  String.mk ((s.source.drop a).take (b - a))

def addToken (t : TokenType) (lit : LitValue) (s : LState) : LState :=
  { s with tokens := s.tokens ++
      [⟨t, substr s s.start s.current, lit, s.line, s.startColumn⟩] }

/-- The keyword table of `Lexer.keywords`. -/
def keywordType : String → Option TokenType
  | "val" => some .VAL
  | "var" => some .VAR
  | "value" => some .VALUE
  | "fun" => some .FUN
  | "if" => some .IF
  | "else" => some .ELSE
  | "when" => some .WHEN
  | "for" => some .FOR
  | "while" => some .WHILE
  | "break" => some .BREAK
  | "continue" => some .CONTINUE
  | "as" => some .AS
  | "trait" => some .TRAIT
  | "use" => some .USE
  | "return" => some .RETURN
  | "true" => some .TRUE
  | "false" => some .FALSE
  | "null" => some .NULL
  | "this" => some .THIS
  | _ => none

def digitsVal (cs : List Char) : Nat :=
  cs.foldl (fun a c => a * 10 + (c.toNat - '0'.toNat)) 0

/-- `parseFloat` on `digits.digits`, decoded exactly. -/
def parseFloatChars (cs : List Char) : JsNum :=
  let ip := cs.takeWhile (· ≠ '.')
  let fp := (cs.dropWhile (· ≠ '.')).drop 1
  ⟨(digitsVal ip : Int) * (10 ^ fp.length : Nat) + (digitsVal fp : Int), 10 ^ fp.length⟩

/-- `parseInt` on a digit string. -/
def parseIntChars (cs : List Char) : JsNum := ⟨(digitsVal cs : Int), 1⟩

/-- The digit-consuming loop `while (this.isDigit(this.peek())) this.advance()`. -/
def consumeDigits : Nat → LState → LState
  | 0, s => s
  | f + 1, s =>
    if isDigitC (peekC s) then consumeDigits f (advance s).2 else s

/-- `number()` of the lexer. -/
def number (f : Nat) (s : LState) : LState :=
  let s := consumeDigits f s
  if peekC s = '.' && isDigitC (peekNextC s) then
    let s := (advance s).2
    let s := consumeDigits f s
    addToken .FLOAT (.num (parseFloatChars ((s.source.drop s.start).take (s.current - s.start)))) s
  else
    addToken .INTEGER (.num (parseIntChars ((s.source.drop s.start).take (s.current - s.start)))) s

/-- `identifier()` of the lexer. -/
def identifier : Nat → LState → LState
  | 0, s => s
  | f + 1, s =>
    if isAlphaNumericC (peekC s) then identifier f (advance s).2
    else
      let text := substr s s.start s.current
      addToken ((keywordType text).getD .IDENTIFIER) .null s

/-- The body loop of `string()`; `none` models the thrown
"Unterminated string." error. -/
def stringLoop : Nat → LState → Option LState
  | 0, _ => none
  | f + 1, s =>
    if peekC s ≠ '"' && !isAtEnd s then
      let s := if peekC s = '\n' then { s with line := s.line + 1, column := 1 } else s
      stringLoop f (advance s).2
    else some s

/-- `string()` of the lexer. -/
def stringTok (f : Nat) (s : LState) : Except String LState :=
  match stringLoop f s with
  | none => .error "lexer fuel exhausted"
  | some s =>
    if isAtEnd s then .error "Unterminated string."
    else
      let s := (advance s).2
      let v := substr s (s.start + 1) (s.current - 1)
      .ok (addToken .STRING (.str v) s)

/-- `blockComment()` of the lexer. -/
def blockComment : Nat → LState → Except String LState
  | 0, _ => .error "lexer fuel exhausted"
  | f + 1, s =>
    if isAtEnd s then .error "Unterminated block comment"
    else if peekC s = '*' && peekNextC s = '/' then
      .ok (advance (advance s).2).2
    else if peekC s = '\n' then
      blockComment f (advance { s with line := s.line + 1, column := 1 }).2
    else blockComment f (advance s).2

/-- The line-comment loop `while (this.peek() !== "\n" && !this.isAtEnd())`. -/
def lineComment : Nat → LState → LState
  | 0, s => s
  | f + 1, s =>
    if peekC s ≠ '\n' && !isAtEnd s then lineComment f (advance s).2 else s

/-- `scanToken()` of the lexer; errors are the thrown JS `Error`s. -/
def scanToken (f : Nat) (s : LState) : Except String LState :=
  let (c, s) := advance s
  if c = '(' then .ok (addToken .LEFT_PAREN .null s)
  else if c = ')' then .ok (addToken .RIGHT_PAREN .null s)
  else if c = '{' then .ok (addToken .LEFT_BRACE .null s)
  else if c = '}' then .ok (addToken .RIGHT_BRACE .null s)
  else if c = '[' then .ok (addToken .LEFT_BRACKET .null s)
  else if c = ']' then .ok (addToken .RIGHT_BRACKET .null s)
  else if c = ',' then .ok (addToken .COMMA .null s)
  else if c = '.' then .ok (addToken .DOT .null s)
  else if c = ':' then .ok (addToken .COLON .null s)
  else if c = ';' then .ok (addToken .SEMICOLON .null s)
  else if c = '|' then
    let (m, s) := matchC '|' s
    .ok (if m then addToken .OR .null s else addToken .PIPE .null s)
  else if c = '+' then .ok (addToken .PLUS .null s)
  else if c = '*' then .ok (addToken .STAR .null s)
  else if c = '%' then .ok (addToken .PERCENT .null s)
  else if c = '-' then
    let (m, s) := matchC '>' s
    .ok (addToken (if m then .ARROW else .MINUS) .null s)
  else if c = '!' then
    let (m, s) := matchC '=' s
    .ok (addToken (if m then .BANG_EQUAL else .BANG) .null s)
  else if c = '=' then
    let (m, s) := matchC '=' s
    .ok (addToken (if m then .EQUAL_EQUAL else .EQUAL) .null s)
  else if c = '<' then
    let (m, s) := matchC '=' s
    .ok (addToken (if m then .LESS_EQUAL else .LESS) .null s)
  else if c = '>' then
    let (m, s) := matchC '=' s
    .ok (addToken (if m then .GREATER_EQUAL else .GREATER) .null s)
  else if c = '?' then
    let (m, s') := matchC ':' s
    if m then .ok (addToken .QUESTION_COLON .null s')
    else
      let (m, s') := matchC '.' s
      if m then .ok (addToken .QUESTION_DOT .null s')
      else .ok (addToken .QUESTION .null s)
  else if c = '&' then
    let (m, s') := matchC '&' s
    if m then .ok (addToken .AND .null s')
    else .error ("Unexpected character: " ++ String.mk [c] ++ " at line " ++
      toString s.line ++ ", column " ++ toString (s.column - 1))
  else if c = '/' then
    let (m, s') := matchC '/' s
    if m then .ok (lineComment f s')
    else
      let (m, s') := matchC '*' s
      if m then blockComment f s'
      else .ok (addToken .SLASH .null s)
  else if c = ' ' || c = '\x0d' || c = '\t' then .ok s
  else if c = '\n' then .ok { s with line := s.line + 1, column := 1 }
  else if c = '"' then stringTok f s
  else if isDigitC c then .ok (number f s)
  else if isAlphaC c then .ok (identifier f s)
  else .error ("Unexpected character: " ++ String.mk [c] ++ " at line " ++
    toString s.line ++ ", column " ++ toString (s.column - 1))

/-- The loop of `scanTokens()`; at the end an EOF token is appended. -/
def scanTokens : Nat → LState → Except String (List Token)
  | 0, _ => .error "lexer fuel exhausted"
  | f + 1, s =>
    if isAtEnd s then
      .ok (s.tokens ++ [⟨.EOF, "", .null, s.line, s.column⟩])
    else
      match scanToken f { s with start := s.current, startColumn := s.column } with
      | .error e => .error e
      | .ok s' => scanTokens f s'

def initLState (src : String) : LState := ⟨src.data, [], 0, 0, 1, 1, 1⟩

/-- `new Lexer(source).scanTokens()`, with a fuel budget that is ample for
terminating scans (the scanner consumes at least one character per step). -/
def lex (src : String) : Except String (List Token) :=
  scanTokens (4 * src.length + 8) (initLState src)

end Lexer

namespace Parser

/-- Mutable state of `Parser` (`src/parser.ts`): the token array, the
`current` cursor, and the recorded error list (`this.errors`, pushed only by
the catch in `declaration()`). Errors are kept as their formatted message
strings. -/
structure PState where
  tokens : List Token
  current : Nat
  errors : List String
deriving Repr

/-- The parser's error channel: `thrown` is a thrown JS `Error` (caught once
per declaration attempt); `fuelOut` is the modelling marker for a
computation that has not finished within the fuel budget. The source has no
counterpart of `fuelOut` — it never crosses a catch, so exhaustion at every
finite budget models non-termination. -/
inductive PErr where
  | thrown (msg : String)
  | fuelOut
deriving DecidableEq, Repr

def PM (α : Type) : Type := PState → Except PErr α × PState

instance : Monad PM where
  pure a := fun s => (.ok a, s)
  bind m f := fun s =>
    match m s with
    | (.ok a, s') => f a s'
    | (.error e, s') => (.error e, s')

/-- Running out of fuel. -/
def pfuel : PM α := fun s => (.error .fuelOut, s)

/-- `throw this.error(token, message)`: the source's `error` method formats
and returns an `Error`, which the call sites throw. -/
def fmtError (tok : Token) (msg : String) : String :=
  "[line " ++ toString tok.line ++ "] Error at '" ++ tok.lexeme ++ "': " ++ msg

def throwErr (msg : String) : PM α := fun s => (.error (.thrown msg), s)

/-- The catch in `declaration()`: only thrown errors are caught; fuel
exhaustion passes through. -/
def pcatch (m : PM α) (h : String → PM α) : PM α := fun s =>
  match m s with
  | (.error (.thrown msg), s') => h msg s'
  | r => r

def eofFallback : Token := ⟨.EOF, "", .null, 0, 0⟩

def peekT : PM Token := fun s => (.ok (s.tokens.getD s.current eofFallback), s)

def previousT : PM Token := fun s =>
  (.ok (s.tokens.getD (s.current - 1) eofFallback), s)

def peekNextT : PM (Option Token) := fun s => (.ok (s.tokens.get? (s.current + 1)), s)

def isAtEndT : PM Bool := do pure ((← peekT).type == .EOF)

def bumpCurrent : PM Unit := fun s => (.ok (), { s with current := s.current + 1 })

def advanceT : PM Token := do
  if !(← isAtEndT) then bumpCurrent
  previousT

def checkTk (t : TokenType) : PM Bool := do
  if ← isAtEndT then pure false else pure ((← peekT).type == t)

/-- `match(...types)`. -/
def matchTk : List TokenType → PM Bool
  | [] => pure false
  | t :: rest => do
    if ← checkTk t then
      let _ ← advanceT
      pure true
    else matchTk rest

/-- `consume(type, message)`. -/
def consumeTk (t : TokenType) (msg : String) : PM Token := do
  if ← checkTk t then advanceT
  else do
    let p ← peekT
    throwErr (fmtError p msg)

/-- `this.errors.push(error)` in the catch of `declaration()`. -/
def pushErr (msg : String) : PM Unit := fun s =>
  (.ok (), { s with errors := s.errors ++ [msg] })

/-- The loop of `synchronize()`. -/
def syncLoop : Nat → PM Unit
  | 0 => pfuel
  | f + 1 => do
    if ← isAtEndT then pure ()
    else if (← previousT).type == .SEMICOLON then pure ()
    else
      let p ← peekT
      if [TokenType.FUN, .VAL, .VAR, .FOR, .IF, .WHILE, .RETURN].contains p.type then
        pure ()
      else do
        let _ ← advanceT
        syncLoop f

/-- `synchronize()`: discard tokens until a statement boundary. -/
def synchronize (f : Nat) : PM Unit := do
  let _ ← advanceT
  syncLoop f

/-- `getExpressionFromStmt(stmt)`. -/
def getExpressionFromStmt : Stmt → Expr
  | .expression e => e
  | s => .block [s]

mutual

/-- `declaration()`: one top-level declaration attempt with its catch and
synchronization. -/
def declaration : Nat → PM (Option Stmt)
  | 0 => pfuel
  | f + 1 =>
    pcatch
      (do
        if ← matchTk [.FUN] then
          pure (some (Stmt.funct (← functionDeclaration f "function" false false)))
        else if ← matchTk [.VAR] then pure (some (← varDeclaration f))
        else if ← matchTk [.VAL] then pure (some (← valDeclaration f))
        else if ← matchTk [.VALUE] then pure (some (← valueDeclaration f))
        else if ← matchTk [.USE] then pure (some (← useDeclaration f))
        else if ← matchTk [.TRAIT] then pure (some (← traitDeclaration f))
        else pure (some (← statement f)))
      (fun msg => do
        pushErr msg
        synchronize f
        pure none)

/-- `functionDeclaration(kind, isMethod, isMutating)`. -/
def functionDeclaration : Nat → String → Bool → Bool → PM FunctionDecl
  | 0, _, _, _ => pfuel
  | f + 1, kind, _isMethod, isMutating => do
    let generics ←
      if ← matchTk [.LESS] then do
        let gs ← genericsLoop f []
        let _ ← consumeTk .GREATER "Expect '>' after generic parameters."
        pure gs
      else pure []
    let name ← consumeTk .IDENTIFIER ("Expect " ++ kind ++ " name.")
    let _ ← consumeTk .LEFT_PAREN ("Expect '(' after " ++ kind ++ " name.")
    let params ←
      if ← checkTk .RIGHT_PAREN then pure [] else paramsLoop f []
    let _ ← consumeTk .RIGHT_PAREN "Expect ')' after parameters."
    let returnType ←
      if ← matchTk [.COLON] then pure (some (← parseType f)) else pure none
    if ← checkTk .LEFT_BRACE then pure ()
    else do
      let p ← peekT
      throwErr (fmtError p ("Expect '\x7b' before " ++ kind ++ " body."))
    let body ← blockP f
    pure (FunctionDecl.mk name params returnType body generics isMutating)

/-- The `do … while (match COMMA)` loop collecting generic parameter names. -/
def genericsLoop : Nat → List Token → PM (List Token)
  | 0, _ => pfuel
  | f + 1, acc => do
    let t ← consumeTk .IDENTIFIER "Expect generic parameter name."
    if ← matchTk [.COMMA] then genericsLoop f (acc ++ [t]) else pure (acc ++ [t])

/-- The parameter list loop of `functionDeclaration`. -/
def paramsLoop : Nat → List (Token × TypeNode) → PM (List (Token × TypeNode))
  | 0, _ => pfuel
  | f + 1, acc => do
    let pname ← consumeTk .IDENTIFIER "Expect parameter name."
    let _ ← consumeTk .COLON "Expect ':' after parameter name."
    let ptype ← parseType f
    let acc := acc ++ [(pname, ptype)]
    if ← matchTk [.COMMA] then paramsLoop f acc else pure acc

/-- `varDeclaration()`. The leading `var fun` check constructs an error but
neither throws nor records it, exactly as in the source. -/
def varDeclaration : Nat → PM Stmt
  | 0 => pfuel
  | f + 1 => do
    if ← checkTk .FUN then
      if ← matchTk [.FUN] then do
        let p ← previousT
        let _ := fmtError p "Mutating methods ('var fun') are only allowed inside 'value' types."
        pure ()
      else pure ()
    else pure ()
    let name ← consumeTk .IDENTIFIER "Expect variable name."
    let ty ← if ← matchTk [.COLON] then pure (some (← parseType f)) else pure none
    let _ ← consumeTk .EQUAL "Expect '=' after variable name."
    let initializer ← expression f
    let _ ← consumeTk .SEMICOLON "Expect ';' after variable declaration."
    pure (Stmt.var name initializer ty true)

/-- `valDeclaration()`. -/
def valDeclaration : Nat → PM Stmt
  | 0 => pfuel
  | f + 1 => do
    let name ← consumeTk .IDENTIFIER "Expect variable name."
    let ty ← if ← matchTk [.COLON] then pure (some (← parseType f)) else pure none
    let _ ← consumeTk .EQUAL "Expect '=' after variable name."
    let initializer ← expression f
    let _ ← consumeTk .SEMICOLON "Expect ';' after variable declaration."
    pure (Stmt.var name initializer ty false)

/-- `valueDeclaration()`. -/
def valueDeclaration : Nat → PM Stmt
  | 0 => pfuel
  | f + 1 => do
    let name ← consumeTk .IDENTIFIER "Expect value type name."
    let generics ←
      if ← matchTk [.LESS] then do
        let gs ← genericsLoop f []
        let _ ← consumeTk .GREATER "Expect '>' after generic parameters."
        pure gs
      else pure []
    let _ ← consumeTk .LEFT_PAREN "Expect '(' after value type name."
    let fields ←
      if ← checkTk .RIGHT_PAREN then pure [] else fieldsLoop f []
    let _ ← consumeTk .RIGHT_PAREN "Expect ')' after value type fields."
    let _ ← consumeTk .LEFT_BRACE "Expect '\x7b' before value type body."
    let methods ← valueBody f []
    let _ ← consumeTk .RIGHT_BRACE "Expect '\x7d' after value type body."
    pure (Stmt.value name fields methods generics)

/-- The field list loop of `valueDeclaration`; a missing `val`/`var` marker
constructs an error that is discarded, leaving the default `false`. -/
def fieldsLoop : Nat → List (Token × TypeNode × Bool) → PM (List (Token × TypeNode × Bool))
  | 0, _ => pfuel
  | f + 1, acc => do
    let isMutable ←
      if ← matchTk [.VAR] then pure true
      else if ← matchTk [.VAL] then pure false
      else do
        let p ← peekT
        let _ := fmtError p "Expect 'val' or 'var' for field declaration."
        pure false
    let fname ← consumeTk .IDENTIFIER "Expect field name."
    let _ ← consumeTk .COLON "Expect ':' after field name."
    let ftype ← parseType f
    let acc := acc ++ [(fname, ftype, isMutable)]
    if ← matchTk [.COMMA] then fieldsLoop f acc else pure acc

/-- The method loop of `valueDeclaration`; on an unexpected token the source
constructs an error, discards it, and loops without consuming anything. -/
def valueBody : Nat → List FunctionDecl → PM (List FunctionDecl)
  | 0, _ => pfuel
  | f + 1, methods => do
    let rb ← checkTk .RIGHT_BRACE
    let ae ← isAtEndT
    if !rb && !ae then
      if ← matchTk [.FUN] then do
        let m ← functionDeclaration f "method" true false
        valueBody f (methods ++ [m])
      else if ← matchTk [.VAR] then
        if ← matchTk [.FUN] then do
          let m ← functionDeclaration f "method" true true
          valueBody f (methods ++ [m])
        else do
          let p ← previousT
          let _ := fmtError p "Expect 'fun' after 'var' in value type body (for mutating method)."
          valueBody f methods
      else do
        let p ← peekT
        let _ := fmtError p "Expect method declaration in value type body."
        valueBody f methods
    else pure methods

/-- `useDeclaration()`. -/
def useDeclaration : Nat → PM Stmt
  | 0 => pfuel
  | f + 1 => do
    let first ← consumeTk .IDENTIFIER "Expect identifier in use path."
    let (path, items, isTrait) ← usePathLoop f [first]
    let _ ← consumeTk .SEMICOLON "Expect ';' after use declaration."
    pure (Stmt.use path items isTrait)

/-- The `while (match DOT)` loop of `useDeclaration`. -/
def usePathLoop : Nat → List Token → PM (List Token × List Token × Bool)
  | 0, _ => pfuel
  | f + 1, path => do
    if ← matchTk [.DOT] then
      if ← matchTk [.LEFT_BRACE] then do
        let items ← itemsLoop f []
        let _ ← consumeTk .RIGHT_BRACE "Expect '\x7d' after import list."
        pure (path, items, false)
      else if ← matchTk [.TRAIT] then pure (path, [], true)
      else do
        let t ← consumeTk .IDENTIFIER "Expect identifier in use path."
        usePathLoop f (path ++ [t])
    else pure (path, [], false)

/-- The import item loop of `useDeclaration`. -/
def itemsLoop : Nat → List Token → PM (List Token)
  | 0, _ => pfuel
  | f + 1, acc => do
    let t ← consumeTk .IDENTIFIER "Expect identifier in import list."
    if ← matchTk [.COMMA] then itemsLoop f (acc ++ [t]) else pure (acc ++ [t])

/-- `traitDeclaration()`. -/
def traitDeclaration : Nat → PM Stmt
  | 0 => pfuel
  | f + 1 => do
    let name ← consumeTk .IDENTIFIER "Expect trait name."
    let _ ← consumeTk .LEFT_BRACE "Expect '\x7b' before trait body."
    let methods ← traitBody f []
    let _ ← consumeTk .RIGHT_BRACE "Expect '\x7d' after trait body."
    pure (Stmt.trait name methods)

/-- The method loop of `traitDeclaration`; on an unexpected token the source
constructs an error, discards it, and loops without consuming anything. -/
def traitBody : Nat → List FunctionDecl → PM (List FunctionDecl)
  | 0, _ => pfuel
  | f + 1, methods => do
    let rb ← checkTk .RIGHT_BRACE
    let ae ← isAtEndT
    if !rb && !ae then
      if ← matchTk [.FUN] then do
        let m ← functionDeclaration f "method" true false
        traitBody f (methods ++ [m])
      else do
        let p ← peekT
        let _ := fmtError p "Expect method declaration in trait body."
        traitBody f methods
    else pure methods

/-- `statement()`. -/
def statement : Nat → PM Stmt
  | 0 => pfuel
  | f + 1 => do
    if ← matchTk [.WHILE] then whileStatement f
    else if ← matchTk [.FOR] then forStatement f
    else if ← matchTk [.BREAK] then breakStatement f
    else if ← matchTk [.CONTINUE] then continueStatement f
    else if ← matchTk [.RETURN] then returnStatement f
    else expressionStatement f

/-- `whileStatement()`. -/
def whileStatement : Nat → PM Stmt
  | 0 => pfuel
  | f + 1 => do
    let _ ← consumeTk .LEFT_PAREN "Expect '(' after 'while'."
    let condition ← expression f
    let _ ← consumeTk .RIGHT_PAREN "Expect ')' after condition."
    let body ← statement f
    pure (Stmt.whileS condition (getExpressionFromStmt body))

/-- `forStatement()`. -/
def forStatement : Nat → PM Stmt
  | 0 => pfuel
  | f + 1 => do
    let _ ← consumeTk .LEFT_PAREN "Expect '(' after 'for'."
    let v ← consumeTk .IDENTIFIER "Expect variable name."
    let _ ← consumeTk .COLON "Expect ':' after variable name in for loop."
    let iterable ← expression f
    let _ ← consumeTk .RIGHT_PAREN "Expect ')' after loop clauses."
    let body ← statement f
    pure (Stmt.forS v iterable (getExpressionFromStmt body))

/-- `breakStatement()`. -/
def breakStatement : Nat → PM Stmt
  | 0 => pfuel
  | _f + 1 => do
    let keyword ← previousT
    let label ←
      if ← checkTk .IDENTIFIER then pure (some (← consumeTk .IDENTIFIER "Expect label."))
      else pure none
    let _ ← consumeTk .SEMICOLON "Expect ';' after 'break'."
    pure (Stmt.breakS keyword label)

/-- `continueStatement()`. -/
def continueStatement : Nat → PM Stmt
  | 0 => pfuel
  | _f + 1 => do
    let keyword ← previousT
    let label ←
      if ← checkTk .IDENTIFIER then pure (some (← consumeTk .IDENTIFIER "Expect label."))
      else pure none
    let _ ← consumeTk .SEMICOLON "Expect ';' after 'continue'."
    pure (Stmt.continueS keyword label)

/-- `returnStatement()`. -/
def returnStatement : Nat → PM Stmt
  | 0 => pfuel
  | f + 1 => do
    let keyword ← previousT
    let c1 ← checkTk .SEMICOLON
    let c2 ← checkTk .RIGHT_BRACE
    let value ← if !c1 && !c2 then pure (some (← expression f)) else pure none
    if ← checkTk .SEMICOLON then do
      let _ ← advanceT
      pure ()
    else if !(← checkTk .RIGHT_BRACE) then do
      let _ ← consumeTk .SEMICOLON "Expect ';' after return value."
      pure ()
    else pure ()
    pure (Stmt.ret keyword value)

/-- `expressionStatement()`: the optional-semicolon rules. -/
def expressionStatement : Nat → PM Stmt
  | 0 => pfuel
  | f + 1 => do
    let e ← expression f
    match e with
    | .block _ | .ifE _ _ _ | .whenE _ _ _ =>
      if ← checkTk .SEMICOLON then do
        let _ ← advanceT
        pure ()
      else pure ()
    | _ =>
      if ← checkTk .RIGHT_BRACE then pure ()
      else do
        let _ ← consumeTk .SEMICOLON "Expect ';' after expression."
        pure ()
    pure (Stmt.expression e)

/-- `expression()`. -/
def expression : Nat → PM Expr
  | 0 => pfuel
  | f + 1 => assignment f

/-- `assignment()`: on an invalid target the source constructs the
"Invalid assignment target." error, discards it, and returns the left-hand
expression. -/
def assignment : Nat → PM Expr
  | 0 => pfuel
  | f + 1 => do
    let e ← elvis f
    if ← matchTk [.EQUAL] then do
      let equals ← previousT
      let value ← assignment f
      match e with
      | .varE name => pure (Expr.assign name value)
      | .get obj name isSafe => pure (Expr.setE obj name value isSafe)
      | .indexGet obj idx => pure (Expr.indexSet obj idx value)
      | _ => do
        let _ := fmtError equals "Invalid assignment target."
        pure e
    else pure e

/-- `elvis()`: the loop returns on its first iteration, so it is a
conditional. -/
def elvis : Nat → PM Expr
  | 0 => pfuel
  | f + 1 => do
    let e ← orExpr f
    if ← matchTk [.QUESTION_COLON] then do
      let op ← previousT
      let right ← elvis f
      pure (Expr.binary e op right)
    else pure e

/-- `or()`. -/
def orExpr : Nat → PM Expr
  | 0 => pfuel
  | f + 1 => do
    let e ← andExpr f
    orLoop f e

def orLoop : Nat → Expr → PM Expr
  | 0, _ => pfuel
  | f + 1, e => do
    if ← matchTk [.OR] then do
      let op ← previousT
      let right ← andExpr f
      orLoop f (Expr.logical e op right)
    else pure e

/-- `and()`. -/
def andExpr : Nat → PM Expr
  | 0 => pfuel
  | f + 1 => do
    let e ← equality f
    andLoop f e

def andLoop : Nat → Expr → PM Expr
  | 0, _ => pfuel
  | f + 1, e => do
    if ← matchTk [.AND] then do
      let op ← previousT
      let right ← equality f
      andLoop f (Expr.logical e op right)
    else pure e

/-- `equality()`. -/
def equality : Nat → PM Expr
  | 0 => pfuel
  | f + 1 => do
    let e ← comparison f
    equalityLoop f e

def equalityLoop : Nat → Expr → PM Expr
  | 0, _ => pfuel
  | f + 1, e => do
    if ← matchTk [.BANG_EQUAL, .EQUAL_EQUAL] then do
      let op ← previousT
      let right ← comparison f
      equalityLoop f (Expr.binary e op right)
    else pure e

/-- `comparison()`. -/
def comparison : Nat → PM Expr
  | 0 => pfuel
  | f + 1 => do
    let e ← term f
    comparisonLoop f e

def comparisonLoop : Nat → Expr → PM Expr
  | 0, _ => pfuel
  | f + 1, e => do
    if ← matchTk [.GREATER, .GREATER_EQUAL, .LESS, .LESS_EQUAL] then do
      let op ← previousT
      let right ← term f
      comparisonLoop f (Expr.binary e op right)
    else pure e

/-- `term()`. -/
def term : Nat → PM Expr
  | 0 => pfuel
  | f + 1 => do
    let e ← factor f
    termLoop f e

def termLoop : Nat → Expr → PM Expr
  | 0, _ => pfuel
  | f + 1, e => do
    if ← matchTk [.MINUS, .PLUS] then do
      let op ← previousT
      let right ← factor f
      termLoop f (Expr.binary e op right)
    else pure e

/-- `factor()`. -/
def factor : Nat → PM Expr
  | 0 => pfuel
  | f + 1 => do
    let e ← unary f
    factorLoop f e

def factorLoop : Nat → Expr → PM Expr
  | 0, _ => pfuel
  | f + 1, e => do
    if ← matchTk [.SLASH, .STAR, .PERCENT] then do
      let op ← previousT
      let right ← unary f
      factorLoop f (Expr.binary e op right)
    else pure e

/-- `unary()`. -/
def unary : Nat → PM Expr
  | 0 => pfuel
  | f + 1 => do
    if ← matchTk [.BANG, .MINUS] then do
      let op ← previousT
      let right ← unary f
      pure (Expr.unary op right)
    else castExpr f

/-- `cast()`. -/
def castExpr : Nat → PM Expr
  | 0 => pfuel
  | f + 1 => do
    let e ← callExpr f
    castLoop f e

def castLoop : Nat → Expr → PM Expr
  | 0, _ => pfuel
  | f + 1, e => do
    if ← matchTk [.AS] then do
      let op ← previousT
      let t ← parseType f
      castLoop f (Expr.cast e t op)
    else pure e

/-- `call()`. -/
def callExpr : Nat → PM Expr
  | 0 => pfuel
  | f + 1 => do
    let e ← primary f
    callLoop f e

/-- The postfix chain loop of `call()`, including trailing-lambda sugar. -/
def callLoop : Nat → Expr → PM Expr
  | 0, _ => pfuel
  | f + 1, e => do
    if ← matchTk [.LEFT_PAREN] then do
      let e' ← finishCall f e
      callLoop f e'
    else if ← matchTk [.DOT] then do
      let name ← consumeTk .IDENTIFIER "Expect property name after '.'."
      callLoop f (Expr.get e name false)
    else if ← matchTk [.QUESTION_DOT] then do
      let name ← consumeTk .IDENTIFIER "Expect property name after '?.'."
      callLoop f (Expr.get e name true)
    else if ← matchTk [.LEFT_BRACKET] then do
      let idx ← expression f
      let _ ← consumeTk .RIGHT_BRACKET "Expect ']' after index."
      callLoop f (Expr.indexGet e idx)
    else if ← matchTk [.QUESTION] then do
      let op ← previousT
      callLoop f (Expr.propagate e op)
    else if ← checkTk .LEFT_BRACE then do
      let lam ← lambdaP f
      let prev ← previousT
      callLoop f (Expr.call e prev [(none, lam)])
    else pure e

/-- `finishCall(callee)`. -/
def finishCall : Nat → Expr → PM Expr
  | 0, _ => pfuel
  | f + 1, callee => do
    let args ←
      if ← checkTk .RIGHT_PAREN then pure [] else argsLoop f []
    let paren ← consumeTk .RIGHT_PAREN "Expect ')' after arguments."
    let args ←
      if ← checkTk .LEFT_BRACE then do
        let lam ← lambdaP f
        pure (args ++ [(none, lam)])
      else pure args
    pure (Expr.call callee paren args)

/-- The argument loop of `finishCall`, with the 2-token named-argument
lookahead. -/
def argsLoop : Nat → List (Option Token × Expr) → PM (List (Option Token × Expr))
  | 0, _ => pfuel
  | f + 1, acc => do
    let isIdent ← checkTk .IDENTIFIER
    let nxt ← peekNextT
    let acc ←
      if isIdent && (match nxt with
        | some t => t.type == TokenType.EQUAL
        | none => false) then do
        let name ← consumeTk .IDENTIFIER "Expect parameter name."
        let _ ← consumeTk .EQUAL "Expect '='."
        let v ← expression f
        pure (acc ++ [(some name, v)])
      else do
        let v ← expression f
        pure (acc ++ [(none, v)])
    if ← matchTk [.COMMA] then argsLoop f acc else pure acc

/-- `primary()`. -/
def primary : Nat → PM Expr
  | 0 => pfuel
  | f + 1 => do
    if ← matchTk [.FALSE] then pure (Expr.literal (.bool false))
    else if ← matchTk [.TRUE] then pure (Expr.literal (.bool true))
    else if ← matchTk [.NULL] then pure (Expr.literal .null)
    else if ← matchTk [.THIS] then pure (Expr.thisE (← previousT))
    else if ← matchTk [.INTEGER, .FLOAT, .STRING] then
      pure (Expr.literal (← previousT).literal)
    else if ← matchTk [.IDENTIFIER] then pure (Expr.varE (← previousT))
    else if ← matchTk [.LEFT_PAREN] then do
      let e ← expression f
      let _ ← consumeTk .RIGHT_PAREN "Expect ')' after expression."
      pure (Expr.grouping e)
    else if ← matchTk [.IF] then ifExpression f
    else if ← matchTk [.WHEN] then whenExpression f
    else if ← checkTk .LEFT_BRACE then lambdaP f
    else if ← matchTk [.LEFT_BRACKET] then arrayLiteral f
    else do
      let p ← peekT
      throwErr (fmtError p "Expect expression.")

/-- `ifExpression()`. -/
def ifExpression : Nat → PM Expr
  | 0 => pfuel
  | f + 1 => do
    let _ ← consumeTk .LEFT_PAREN "Expect '(' after 'if'."
    let condition ← expression f
    let _ ← consumeTk .RIGHT_PAREN "Expect ')' after if condition."
    let thenBranch ← parseControlFlowBody f
    let elseBranch ←
      if ← matchTk [.ELSE] then pure (some (← parseControlFlowBody f)) else pure none
    pure (Expr.ifE condition thenBranch elseBranch)

/-- `whenExpression()`. -/
def whenExpression : Nat → PM Expr
  | 0 => pfuel
  | f + 1 => do
    let _ ← consumeTk .LEFT_PAREN "Expect '(' after 'when'."
    let subject ←
      if ← checkTk .RIGHT_PAREN then pure none else pure (some (← expression f))
    let _ ← consumeTk .RIGHT_PAREN "Expect ')' after when subject."
    let _ ← consumeTk .LEFT_BRACE "Expect '\x7b' after when."
    let (entries, elseBranch) ← whenLoop f [] none
    let _ ← consumeTk .RIGHT_BRACE "Expect '\x7d' after when body."
    pure (Expr.whenE subject entries elseBranch)

/-- The entry loop of `whenExpression`. -/
def whenLoop : Nat → List (List Expr × Expr) → Option Expr →
    PM (List (List Expr × Expr) × Option Expr)
  | 0, _, _ => pfuel
  | f + 1, entries, elseB => do
    let rb ← checkTk .RIGHT_BRACE
    let ae ← isAtEndT
    if !rb && !ae then
      if ← matchTk [.ELSE] then do
        let _ ← consumeTk .ARROW "Expect '->' after 'else'."
        let eb ← parseControlFlowBody f
        let _ ← matchTk [.COMMA, .SEMICOLON]
        whenLoop f entries (some eb)
      else do
        let conds ← condsLoop f []
        let _ ← consumeTk .ARROW "Expect '->' after conditions."
        let body ← parseControlFlowBody f
        let _ ← matchTk [.COMMA, .SEMICOLON]
        whenLoop f (entries ++ [(conds, body)]) elseB
    else pure (entries, elseB)

/-- The condition list loop of a `when` entry. -/
def condsLoop : Nat → List Expr → PM (List Expr)
  | 0, _ => pfuel
  | f + 1, acc => do
    let c ← expression f
    if ← matchTk [.COMMA] then condsLoop f (acc ++ [c]) else pure (acc ++ [c])

/-- `parseControlFlowBody()`. -/
def parseControlFlowBody : Nat → PM Expr
  | 0 => pfuel
  | f + 1 => do
    if ← checkTk .LEFT_BRACE then blockP f else expression f

/-- `block()`: consumes the braces and returns a `BlockExpr`. -/
def blockP : Nat → PM Expr
  | 0 => pfuel
  | f + 1 => do
    let _ ← consumeTk .LEFT_BRACE "Expect '\x7b' to start block."
    let stmts ← blockLoop f []
    let _ ← consumeTk .RIGHT_BRACE "Expect '\x7d' after block."
    pure (Expr.block stmts)

/-- The statement loop shared by `block()` and the lambda body. -/
def blockLoop : Nat → List Stmt → PM (List Stmt)
  | 0, _ => pfuel
  | f + 1, acc => do
    let rb ← checkTk .RIGHT_BRACE
    let ae ← isAtEndT
    if !rb && !ae then do
      let d ← declaration f
      blockLoop f (match d with | some s => acc ++ [s] | none => acc)
    else pure acc

/-- `lambda()`. -/
def lambdaP : Nat → PM Expr
  | 0 => pfuel
  | f + 1 => do
    let _ ← consumeTk .LEFT_BRACE "Expect '\x7b' to start lambda."
    let isParams ←
      if ← checkTk .IDENTIFIER then do
        let nxt ← peekNextT
        pure (match nxt with
          | some t => t.type == TokenType.COLON || t.type == TokenType.COMMA ||
              t.type == TokenType.ARROW
          | none => false)
      else pure false
    let params ←
      if isParams then do
        let ps ← lambdaParamsLoop f []
        let _ ← consumeTk .ARROW "Expect '->' after lambda parameters."
        pure ps
      else pure []
    let stmts ← blockLoop f []
    let _ ← consumeTk .RIGHT_BRACE "Expect '\x7d' after lambda body."
    pure (Expr.lambda params (Expr.block stmts))

/-- The parameter loop of `lambda()`. -/
def lambdaParamsLoop : Nat → List (Token × Option TypeNode) →
    PM (List (Token × Option TypeNode))
  | 0, _ => pfuel
  | f + 1, acc => do
    let name ← consumeTk .IDENTIFIER "Expect param name."
    let ty ← if ← matchTk [.COLON] then pure (some (← parseType f)) else pure none
    let acc := acc ++ [(name, ty)]
    if ← matchTk [.COMMA] then lambdaParamsLoop f acc else pure acc

/-- `arrayLiteral()`: note that it consumes a `[` of its own although
`primary()` has already matched one. -/
def arrayLiteral : Nat → PM Expr
  | 0 => pfuel
  | f + 1 => do
    let _ ← consumeTk .LEFT_BRACKET "Expect '['."
    let elements ←
      if ← checkTk .RIGHT_BRACKET then pure [] else elementsLoop f []
    let _ ← consumeTk .RIGHT_BRACKET "Expect ']'."
    pure (Expr.arrayLit elements)

/-- The element loop of `arrayLiteral`. -/
def elementsLoop : Nat → List Expr → PM (List Expr)
  | 0, _ => pfuel
  | f + 1, acc => do
    let e ← expression f
    if ← matchTk [.COMMA] then elementsLoop f (acc ++ [e]) else pure (acc ++ [e])

/-- `parseType()`: postfix `[]`/`?` then the union splice on `|`. -/
def parseType : Nat → PM TypeNode
  | 0 => pfuel
  | f + 1 => do
    let t ← parseBaseType f
    let t ← typePostfixLoop f t
    if ← matchTk [.PIPE] then do
      let rhs ← parseType f
      match rhs with
      | .union ts => pure (TypeNode.union (t :: ts))
      | _ => pure (TypeNode.union [t, rhs])
    else pure t

/-- The `[]`/`?` postfix loop of `parseType`. -/
def typePostfixLoop : Nat → TypeNode → PM TypeNode
  | 0, _ => pfuel
  | f + 1, t => do
    if ← matchTk [.LEFT_BRACKET] then do
      let _ ← consumeTk .RIGHT_BRACKET "Expect ']' after '[' for array type."
      typePostfixLoop f (TypeNode.arr t)
    else if ← matchTk [.QUESTION] then typePostfixLoop f (TypeNode.opt t)
    else pure t

/-- `parseBaseType()`. -/
def parseBaseType : Nat → PM TypeNode
  | 0 => pfuel
  | f + 1 => do
    if ← matchTk [.LEFT_PAREN] then do
      let t ← parseType f
      let _ ← consumeTk .RIGHT_PAREN "Expect ')' after grouped type."
      pure t
    else do
      let name ← consumeTk .IDENTIFIER "Expect type name."
      let generics ←
        if ← matchTk [.LESS] then do
          let gs ← genericArgsLoop f []
          let _ ← consumeTk .GREATER "Expect '>' after generic type arguments."
          pure gs
        else pure []
      pure (TypeNode.named name generics)

/-- The generic argument loop of `parseBaseType`. -/
def genericArgsLoop : Nat → List TypeNode → PM (List TypeNode)
  | 0, _ => pfuel
  | f + 1, acc => do
    let t ← parseType f
    if ← matchTk [.COMMA] then genericArgsLoop f (acc ++ [t]) else pure (acc ++ [t])

/-- The `while (!isAtEnd())` loop of `parse()`. -/
def parseLoop : Nat → List Stmt → PM (List Stmt)
  | 0, _ => pfuel
  | f + 1, acc => do
    if ← isAtEndT then pure acc
    else do
      let d ← declaration f
      parseLoop f (match d with | some s => acc ++ [s] | none => acc)

end

/-- `parse()`. -/
def parse (fuel : Nat) : PM (List Stmt) := parseLoop fuel []

def pInit (toks : List Token) : PState := ⟨toks, 0, []⟩

/-- Run `new Parser(tokens).parse()` and pair the result with the final
state (whose `errors` field is what `getErrors()` returns). -/
def runParse (fuel : Nat) (toks : List Token) : Except PErr (List Stmt) × PState :=
  parse fuel (pInit toks)

end Parser

/-- Lex then parse: `parser.parse()` preceded by `lexer.scanTokens()`, as in
the repository's tests. Returns the statements together with the parser's
recorded syntax diagnostics; a lexer throw surfaces as a single message with
no statements. -/
def frontend (fuel : Nat) (src : String) : List Stmt × List String :=
  match Lexer.lex src with
  | .error e => ([], [e])
  | .ok toks =>
    match Parser.runParse fuel toks with
    | (.ok stmts, s) => (stmts, s.errors)
    | (.error _, s) => ([], s.errors)

namespace AstPrinter

/-- The digits after the decimal point of `a / den` (`a` already reduced to
the remainder), for the finite decimal expansions the lexer's literals
have. -/
def fracDigits : Nat → Nat → Nat → List Char
  | 0, _, _ => []
  | f + 1, rem, den =>
    if rem = 0 then []
    else
      let rem10 := rem * 10
      Char.ofNat ('0'.toNat + rem10 / den) :: fracDigits f (rem10 % den) den

/-- `Number.prototype.toString` on a decoded numeric literal: integral
values print as integers, others as their (finite) decimal expansion — JS
prints the shortest uniquely-identifying decimal, which agrees on the short
decimals the lexer produces. -/
def numToString (v : JsNum) : String :=
  if v.isInt then toString (v.num / (v.den : Int))
  else
    let sign := if v.num < 0 then "-" else ""
    let a := v.num.natAbs
    sign ++ toString (a / v.den) ++ "." ++ String.mk (fracDigits 30 (a % v.den) v.den)

/-- `visitLiteralExpr` of `AstPrinter` (`src/ast_printer.ts`): `null`
prints as "nil", strings are quoted, other values use their `toString`. -/
def litToString : LitValue → String
  | .null => "nil"
  | .str s => "\"" ++ s ++ "\""
  | .num v => numToString v
  | .bool b => if b then "true" else "false"

def joinSpace (xs : List String) : String := String.intercalate " " xs

mutual

/-- The type visitors of `AstPrinter`. -/
def printType : Nat → TypeNode → String
  | 0, _ => ""
  | f + 1, t =>
    match t with
    | .named n gs =>
      n.lexeme ++
        (if gs.length > 0 then
          "<" ++ String.intercalate ", " (printTypeList f gs) ++ ">"
        else "")
    | .union ts => "(" ++ String.intercalate " | " (printTypeList f ts) ++ ")"
    | .arr e => printType f e ++ "[]"
    | .opt i => printType f i ++ "?"
    | .generic n => n.lexeme

def printTypeList : Nat → List TypeNode → List String
  | 0, _ => []
  | _f + 1, [] => []
  | f + 1, t :: ts => printType (f + 1) t :: printTypeList f ts

/-- The expression visitors of `AstPrinter`. -/
def printExpr : Nat → Expr → String
  | 0, _ => ""
  | f + 1, e =>
    match e with
    | .assign name value => "(assign " ++ name.lexeme ++ " " ++ printExpr f value ++ ")"
    | .binary l op r => "(" ++ op.lexeme ++ " " ++ printExpr f l ++ " " ++ printExpr f r ++ ")"
    | .call callee _ args =>
      "(call " ++ printExpr f callee ++ " " ++ joinSpace (printArgs f args) ++ ")"
    | .get obj name isSafe =>
      "(get" ++ (if isSafe then "?" else "") ++ " " ++ printExpr f obj ++ " " ++
        name.lexeme ++ ")"
    | .grouping e => "(group " ++ printExpr f e ++ ")"
    | .literal v => litToString v
    | .logical l op r => "(" ++ op.lexeme ++ " " ++ printExpr f l ++ " " ++ printExpr f r ++ ")"
    | .setE obj name value isSafe =>
      "(set" ++ (if isSafe then "?" else "") ++ " " ++ printExpr f obj ++ " " ++
        name.lexeme ++ " " ++ printExpr f value ++ ")"
    | .thisE _ => "this"
    | .unary op r => "(" ++ op.lexeme ++ " " ++ printExpr f r ++ ")"
    | .varE name => name.lexeme
    | .block stmts => "(block " ++ joinSpace (printStmtList f stmts) ++ ")"
    | .ifE c t e? =>
      "(if " ++ printExpr f c ++ " " ++ printExpr f t ++
        (match e? with | some e => " " ++ printExpr f e | none => "") ++ ")"
    | .whenE subj entries elseB =>
      "(when " ++
        (match subj with | some s => printExpr f s ++ " " | none => "") ++
        joinSpace (printWhenEntries f entries) ++
        (match elseB with
          | some e => " [else -> " ++ printExpr f e ++ "]"
          | none => "") ++ ")"
    | .lambda params body =>
      "(lambda (" ++
        joinSpace (params.map (fun p => p.1.lexeme ++
          (match p.2 with | some t => ":" ++ printType f t | none => ""))) ++
        ") " ++ printExpr f body ++ ")"
    | .arrayLit elems => "(array " ++ joinSpace (printExprList f elems) ++ ")"
    | .indexGet obj idx => "(index " ++ printExpr f obj ++ " " ++ printExpr f idx ++ ")"
    | .indexSet obj idx v =>
      "(index-set " ++ printExpr f obj ++ " " ++ printExpr f idx ++ " " ++
        printExpr f v ++ ")"
    | .propagate e _ => "(propagate " ++ printExpr f e ++ ")"
    | .cast e t _ => "(cast " ++ printExpr f e ++ " " ++ printType f t ++ ")"

def printArgs : Nat → List (Option Token × Expr) → List String
  | 0, _ => []
  | _f + 1, [] => []
  | f + 1, (name?, v) :: rest =>
    (match name? with
      | some n => n.lexeme ++ "=" ++ printExpr f v
      | none => printExpr f v) :: printArgs f rest

def printExprList : Nat → List Expr → List String
  | 0, _ => []
  | _f + 1, [] => []
  | f + 1, e :: es => printExpr (f + 1) e :: printExprList f es

def printWhenEntries : Nat → List (List Expr × Expr) → List String
  | 0, _ => []
  | _f + 1, [] => []
  | f + 1, (conds, body) :: rest =>
    ("[" ++ String.intercalate ", " (printExprList f conds) ++ " -> " ++
      printExpr f body ++ "]") :: printWhenEntries f rest

/-- The statement visitors of `AstPrinter`. -/
def printStmt : Nat → Stmt → String
  | 0, _ => ""
  | f + 1, s =>
    match s with
    | .expression e => "(stmt " ++ printExpr f e ++ ")"
    | .funct fd => printFunction (f + 1) fd
    | .ret _ value =>
      match value with
      | some v => "(return " ++ printExpr f v ++ ")"
      | none => "(return)"
    | .var name init ty isMutable =>
      "(" ++ (if isMutable then "var" else "val") ++ " " ++ name.lexeme ++
        (match ty with | some t => ":" ++ printType f t | none => "") ++
        " " ++ printExpr f init ++ ")"
    | .whileS c body => "(while " ++ printExpr f c ++ " " ++ printExpr f body ++ ")"
    | .forS v iterable body =>
      "(for " ++ v.lexeme ++ " in " ++ printExpr f iterable ++ " " ++
        printExpr f body ++ ")"
    | .breakS _ label =>
      match label with
      | some l => "(break " ++ l.lexeme ++ ")"
      | none => "(break)"
    | .continueS _ label =>
      match label with
      | some l => "(continue " ++ l.lexeme ++ ")"
      | none => "(continue)"
    | .value name fields methods generics =>
      "(value " ++ name.lexeme ++
        (if generics.length > 0 then
          "<" ++ String.intercalate ", " (generics.map Token.lexeme) ++ ">"
        else "") ++
        " (" ++ joinSpace (fields.map (fun fld =>
          (if fld.2.2 then "var" else "val") ++ " " ++ fld.1.lexeme ++ ":" ++
            printType f fld.2.1)) ++
        ") (" ++ joinSpace (printFunctionList f methods) ++ "))"
    | .use path items isTrait =>
      "(use " ++ (if isTrait then "trait " else "") ++
        String.intercalate "." (path.map Token.lexeme) ++
        (if items.length > 0 then
          ".\x7b" ++ String.intercalate ", " (items.map Token.lexeme) ++ "\x7d"
        else "") ++ ")"
    | .trait _ _ =>
      -- `AstPrinter` implements no `visitTraitStmt`; dispatching a trait
      -- statement would crash in the source. No claim exercises this case.
      ""

/-- `visitFunctionStmt` of `AstPrinter`. -/
def printFunction : Nat → FunctionDecl → String
  | 0, _ => ""
  | f + 1, .mk name params returnType body generics isMutating =>
    "(" ++ (if isMutating then "var-fun" else "fun") ++ " " ++ name.lexeme ++
      (if generics.length > 0 then
        "<" ++ String.intercalate ", " (generics.map Token.lexeme) ++ ">"
      else "") ++
      " (" ++ joinSpace (params.map (fun p => p.1.lexeme ++ ":" ++ printType f p.2)) ++
      ")" ++
      (match returnType with | some t => ":" ++ printType f t | none => "") ++
      " " ++ printExpr f body ++ ")"

def printFunctionList : Nat → List FunctionDecl → List String
  | 0, _ => []
  | _f + 1, [] => []
  | f + 1, fd :: rest => printFunction (f + 1) fd :: printFunctionList f rest

def printStmtList : Nat → List Stmt → List String
  | 0, _ => []
  | _f + 1, [] => []
  | f + 1, s :: rest => printStmt (f + 1) s :: printStmtList f rest

end

end AstPrinter

/-- Render a parsed statement list to the printer's canonical text, one
statement after another separated by spaces (how the printer is applied as a
test oracle over a whole program). -/
def renderProgram (fuel : Nat) (stmts : List Stmt) : String :=
  String.intercalate " " (AstPrinter.printStmtList fuel stmts)

namespace Checker

/-- `CheckerError` from `src/checker.ts`: the offending token and a
message. -/
structure CheckerError where
  token : Token
  message : String
deriving DecidableEq, Repr

/-- A binding in an `Environment` scope: a resolved type, or a function
declaration treated as a callable binding (`type TypeInfo = TypeNode |
FunctionStmt`). -/
inductive TypeInfo where
  | ty (t : TypeNode)
  | fn (f : FunctionDecl)

/-- One `Environment` scope: its `values` map, as an association list in
which a later `define` of the same name shadows the earlier entry (lookup
takes the first hit, as `Map.get` returns the latest `set`). -/
abbrev Scope := List (String × TypeInfo)

/-- The checker's error channel: `thrown` is a thrown `CheckerError`
(caught once, around the whole loop of `check`); `fuelOut` is the modelling
marker for fuel exhaustion and has no source counterpart. -/
inductive CErr where
  | thrown (e : CheckerError)
  | fuelOut
deriving DecidableEq, Repr

/-- Mutable state of `Checker`: the current `Environment` as the chain of
scopes (innermost first, never empty in any reachable state: the checker is
constructed with one root `Environment`), and `currentFunction`. The
`errors` array is only ever pushed by the catch in `check` and is therefore
modelled as the result of `checkProgram`. -/
structure CState where
  environment : List Scope
  currentFunction : Option FunctionDecl

/-- `Environment.get(name)`, walking the scope chain. -/
def envGet : List Scope → Token → Except CheckerError TypeInfo
  | [], n => .error ⟨n, "Undefined variable '" ++ n.lexeme ++ "'."⟩
  | sc :: rest, n =>
    match sc.find? (fun b => b.1 == n.lexeme) with
    | some b => .ok b.2
    | none => envGet rest n

/-- `Environment.define(name, info)` on the innermost scope. -/
def envDefine (env : List Scope) (name : String) (info : TypeInfo) : List Scope :=
  match env with
  | sc :: rest => ((name, info) :: sc) :: rest
  | [] => [[(name, info)]]

/-- `typeToString` of the checker. -/
def typeToString : TypeNode → String
  | .named n _ => n.lexeme
  | .arr e => typeToString e ++ "[]"
  | _ => "Type"

/-- `isTypeCompatible(target, source)` of the checker. -/
def isTypeCompatible (target source : TypeNode) : Bool :=
  match target, source with
  | .named n _, .named n' _ => n.lexeme == n'.lexeme
  | _, _ =>
    let targetStr := typeToString target
    let sourceStr := typeToString source
    if targetStr != "Type" && sourceStr != "Type" then targetStr == sourceStr
    else typeNodeEq target source

/-- `checkType(expected, actual, token)`: throws on incompatibility. -/
def checkType (expected actual : TypeNode) (token : Token) : Except CheckerError Unit :=
  if isTypeCompatible expected actual then .ok ()
  else .error ⟨token, "Expected type " ++ typeToString expected ++ ", but got " ++
    typeToString actual ++ "."⟩

/-- `getUnitType(line)`. -/
def unitTypeAt (line : Nat) : TypeNode :=
  .named ⟨.IDENTIFIER, "Unit", .null, line, 0⟩ []

def unitType : TypeNode := unitTypeAt 0

/-- `getBooleanType()`. -/
def booleanType : TypeNode := .named ⟨.IDENTIFIER, "Boolean", .null, 0, 0⟩ []

def i32Type : TypeNode := .named ⟨.IDENTIFIER, "i32", .null, 0, 0⟩ []

def f32Type : TypeNode := .named ⟨.IDENTIFIER, "f32", .null, 0, 0⟩ []

def stringType : TypeNode := .named ⟨.IDENTIFIER, "String", .null, 0, 0⟩ []

def nullType : TypeNode := .named ⟨.IDENTIFIER, "Null", .null, 0, 0⟩ []

/-- `visitLiteralExpr`: a JS number is typed by `Number.isInteger` of its
decoded value — integral values give `i32`, the rest `f32`. -/
def visitLiteralExpr : LitValue → TypeNode
  | .num v => if v.isInt then i32Type else f32Type
  | .str _ => stringType
  | .bool _ => booleanType
  | .null => nullType

/-- `Array.prototype.includes` test of `visitBinaryExpr` distinguishing
comparison/equality operators. -/
def isComparisonOp (t : TokenType) : Bool :=
  [TokenType.EQUAL_EQUAL, .BANG_EQUAL, .GREATER, .GREATER_EQUAL, .LESS,
    .LESS_EQUAL].contains t

/-- `define` of every parameter in `visitFunctionStmt`. -/
def defineParams : List (Token × TypeNode) → List Scope → List Scope
  | [], env => env
  | p :: ps, env => defineParams ps (envDefine env p.1.lexeme (.ty p.2))

mutual

/-- `evaluate(expr)` — the expression visitors of `Checker`
(`src/checker.ts`), with the state threaded explicitly; a thrown
`CheckerError` leaves the state as it was at the throw site. -/
def evalE : Nat → Expr → CState → Except CErr TypeNode × CState
  | 0, _, st => (.error .fuelOut, st)
  | f + 1, e, st =>
    match e with
    | .literal v => (.ok (visitLiteralExpr v), st)
    | .varE name =>
      -- visitVariableExpr
      match envGet st.environment name with
      | .error err => (.error (.thrown err), st)
      | .ok (.fn _) =>
        (.ok (.named ⟨.IDENTIFIER, "Function", .null, name.line, name.column⟩ []), st)
      | .ok (.ty t) => (.ok t, st)
    | .call callee paren args =>
      -- visitCallExpr
      match callee with
      | .varE nameTok =>
        match envGet st.environment nameTok with
        | .error err => (.error (.thrown err), st)
        | .ok (.fn fd) =>
          if args.length ≠ fd.params.length then
            (.error (.thrown ⟨paren, "Expected " ++ toString fd.params.length ++
              " arguments but got " ++ toString args.length ++ "."⟩), st)
          else
            match checkArgs f args fd.params paren st with
            | (.error err, st1) => (.error err, st1)
            | (.ok _, st1) => (.ok (fd.returnType.getD unitType), st1)
        | .ok (.ty _) => (.error (.thrown ⟨paren, "Can only call named functions."⟩), st)
      | _ =>
        match evalE f callee st with
        | (.error err, st1) => (.error err, st1)
        | (.ok _, st1) => (.error (.thrown ⟨paren, "Can only call named functions."⟩), st1)
    | .assign name value =>
      -- visitAssignExpr
      match envGet st.environment name with
      | .error err => (.error (.thrown err), st)
      | .ok (.fn _) => (.error (.thrown ⟨name, "Cannot assign to a function."⟩), st)
      | .ok (.ty variableType) =>
        match evalE f value st with
        | (.error err, st1) => (.error err, st1)
        | (.ok valueType, st1) =>
          match checkType variableType valueType name with
          | .error err => (.error (.thrown err), st1)
          | .ok _ => (.ok variableType, st1)
    | .binary l op r =>
      -- visitBinaryExpr: checkType(left, right) runs for every operator,
      -- equality and comparison included, before the operator dispatch.
      match evalE f l st with
      | (.error err, st1) => (.error err, st1)
      | (.ok leftT, st1) =>
        match evalE f r st1 with
        | (.error err, st2) => (.error err, st2)
        | (.ok rightT, st2) =>
          match checkType leftT rightT op with
          | .error err => (.error (.thrown err), st2)
          | .ok _ =>
            if isComparisonOp op.type then (.ok booleanType, st2)
            else (.ok leftT, st2)
    | .get _ _ _ => (.ok unitType, st)
    | .grouping inner => evalE f inner st
    | .logical l _ r =>
      -- visitLogicalExpr
      match evalE f l st with
      | (.error err, st1) => (.error err, st1)
      | (.ok _, st1) =>
        match evalE f r st1 with
        | (.error err, st2) => (.error err, st2)
        | (.ok _, st2) => (.ok booleanType, st2)
    | .setE _ _ _ _ => (.ok unitType, st)
    | .thisE _ => (.ok unitType, st)
    | .unary _ r => evalE f r st
    | .block stmts =>
      -- visitBlockExpr: push a scope, fold the statements, restore on the
      -- normal path only (no finally in the source).
      let saved := st.environment
      match blockLoopC f stmts unitType { st with environment := [] :: st.environment } with
      | (.error err, st1) => (.error err, st1)
      | (.ok lastT, st1) => (.ok lastT, { st1 with environment := saved })
    | .ifE c t e? =>
      -- visitIfExpr
      match evalE f c st with
      | (.error err, st1) => (.error err, st1)
      | (.ok conditionT, st1) =>
        let errorToken : Token :=
          match c with
          | .varE n => n
          | _ => ⟨.IF, "if", .null, 0, 0⟩
        match checkType booleanType conditionT errorToken with
        | .error err => (.error (.thrown err), st1)
        | .ok _ =>
          match evalE f t st1 with
          | (.error err, st2) => (.error err, st2)
          | (.ok thenT, st2) =>
            match e? with
            | some els =>
              match evalE f els st2 with
              | (.error err, st3) => (.error err, st3)
              | (.ok elseT, st3) =>
                if isTypeCompatible thenT elseT then (.ok thenT, st3)
                else
                  (.error (.thrown ⟨⟨.ELSE, "else", .null, 0, 0⟩,
                    "If branches must return compatible types. Got " ++
                      typeToString thenT ++ " and " ++ typeToString elseT ++ "."⟩), st3)
            | none => (.ok thenT, st2)
    | .whenE _ _ _ => (.ok unitType, st)
    | .lambda _ _ => (.ok unitType, st)
    | .arrayLit _ => (.ok unitType, st)
    | .indexGet _ _ => (.ok unitType, st)
    | .indexSet _ _ _ => (.ok unitType, st)
    | .propagate inner _ => evalE f inner st
    | .cast _ targetType _ => (.ok targetType, st)

/-- `execute(stmt)` — the statement visitors of `Checker`. -/
def execS : Nat → Stmt → CState → Except CErr Unit × CState
  | 0, _, st => (.error .fuelOut, st)
  | f + 1, s, st =>
    match s with
    | .expression e =>
      match evalE f e st with
      | (.error err, st1) => (.error err, st1)
      | (.ok _, st1) => (.ok (), st1)
    | .funct fd =>
      -- visitFunctionStmt: define the name in the current scope, save the
      -- environment and currentFunction, open the body scope, bind the
      -- parameters, evaluate the body; the return-type check throws before
      -- the restores, which therefore run on the normal path only.
      let envDefd := envDefine st.environment fd.name.lexeme (.fn fd)
      let st2 : CState :=
        { environment := defineParams fd.params ([] :: envDefd),
          currentFunction := some fd }
      match evalE f fd.body st2 with
      | (.error err, st3) => (.error err, st3)
      | (.ok bodyType, st3) =>
        match fd.returnType with
        | some rt =>
          if typeToString bodyType != "Unit" then
            match checkType rt bodyType fd.name with
            | .error err => (.error (.thrown err), st3)
            | .ok _ =>
              (.ok (), { environment := envDefd, currentFunction := st.currentFunction })
          else
            (.ok (), { environment := envDefd, currentFunction := st.currentFunction })
        | none =>
          (.ok (), { environment := envDefd, currentFunction := st.currentFunction })
    | .ret keyword value =>
      -- visitReturnStmt; the two shapes of `stmt.value` are spelled out
      match st.currentFunction with
      | none => (.error (.thrown ⟨keyword, "Can't return from top-level code."⟩), st)
      | some fd =>
        match value with
        | some v =>
          match evalE f v st with
          | (.error err, st1) => (.error err, st1)
          | (.ok valueType, st1) =>
            match fd.returnType with
            | some rt =>
              match checkType rt valueType keyword with
              | .error err => (.error (.thrown err), st1)
              | .ok _ => (.ok (), st1)
            | none => (.ok (), st1)
        | none =>
          match fd.returnType with
          | some rt =>
            match checkType rt (unitTypeAt keyword.line) keyword with
            | .error err => (.error (.thrown err), st)
            | .ok _ => (.ok (), st)
          | none => (.ok (), st)
    | .var name initializer ty _ =>
      -- visitVarStmt; the initializer is never absent in parsed trees, so
      -- the "must have a type annotation or an initializer" branch of the
      -- source is unreachable here.
      match evalE f initializer st with
      | (.error err, st1) => (.error err, st1)
      | (.ok initializerType, st1) =>
        match ty with
        | some t =>
          match checkType t initializerType name with
          | .error err => (.error (.thrown err), st1)
          | .ok _ =>
            (.ok (), { st1 with environment := envDefine st1.environment name.lexeme (.ty t) })
        | none =>
          (.ok (), { st1 with
            environment := envDefine st1.environment name.lexeme (.ty initializerType) })
    | .whileS c body =>
      -- visitWhileStmt
      match evalE f c st with
      | (.error err, st1) => (.error err, st1)
      | (.ok conditionT, st1) =>
        match checkType booleanType conditionT ⟨.WHILE, "while", .null, 0, 0⟩ with
        | .error err => (.error (.thrown err), st1)
        | .ok _ =>
          match evalE f body st1 with
          | (.error err, st2) => (.error err, st2)
          | (.ok _, st2) => (.ok (), st2)
    | .forS _ _ body =>
      -- visitForStmt
      match evalE f body st with
      | (.error err, st1) => (.error err, st1)
      | (.ok _, st1) => (.ok (), st1)
    | .breakS _ _ => (.ok (), st)
    | .continueS _ _ => (.ok (), st)
    | .value _ _ _ _ => (.ok (), st)
    | .use _ _ _ => (.ok (), st)
    | .trait _ _ => (.ok (), st)

/-- The statement fold of `visitBlockExpr`: the running type is the last
expression-statement's type, `Unit` after any other statement. -/
def blockLoopC : Nat → List Stmt → TypeNode → CState → Except CErr TypeNode × CState
  | 0, _, _, st => (.error .fuelOut, st)
  | _ + 1, [], lastT, st => (.ok lastT, st)
  | f + 1, s :: rest, _, st =>
    match s with
    | .expression e =>
      match evalE f e st with
      | (.error err, st1) => (.error err, st1)
      | (.ok t, st1) => blockLoopC f rest t st1
    | _ =>
      match execS f s st with
      | (.error err, st1) => (.error err, st1)
      | (.ok _, st1) => blockLoopC f rest unitType st1

/-- The positional-argument loop of `visitCallExpr`: each argument's type is
derived and checked against the parameter's declared type; the first failing
check throws. The caller has already ensured the two lists have the same
length. -/
def checkArgs : Nat → List (Option Token × Expr) → List (Token × TypeNode) →
    Token → CState → Except CErr Unit × CState
  | 0, _, _, _, st => (.error .fuelOut, st)
  | _ + 1, [], _, _, st => (.ok (), st)
  | _ + 1, _ :: _, [], _, st => (.ok (), st)
  | f + 1, arg :: args, p :: ps, paren, st =>
    match evalE f arg.2 st with
    | (.error err, st1) => (.error err, st1)
    | (.ok argType, st1) =>
      match checkType p.2 argType paren with
      | .error err => (.error (.thrown err), st1)
      | .ok _ => checkArgs f args ps paren st1

end

/-- The fresh state of `new Checker()`: one root environment, no enclosing
function. -/
def initCState : CState := ⟨[[]], none⟩

/-- `check(statements)`: execute the top-level statements in order inside a
single try/catch; the first thrown `CheckerError` is recorded and ends the
loop, so the returned list is what `getErrors()` yields afterwards. A fuel
exhaustion records nothing. -/
def checkProgram (fuel : Nat) : List Stmt → CState → List CheckerError × CState
  | [], st => ([], st)
  | s :: rest, st =>
    match execS fuel s st with
    | (.ok _, st1) => checkProgram fuel rest st1
    | (.error (.thrown e), st1) => ([e], st1)
    | (.error .fuelOut, st1) => ([], st1)

/-- `checker.check(statements); checker.getErrors()` on a fresh checker. -/
def checkFresh (fuel : Nat) (stmts : List Stmt) : List CheckerError :=
  (checkProgram fuel stmts initCState).1

theorem envDefine_length {env : List Scope} (n : String) (i : TypeInfo)
    (h : 0 < env.length) : (envDefine env n i).length = env.length := by
  cases env with
  | nil => simp at h
  | cons sc rest => simp [envDefine]

theorem defineParams_length (ps : List (Token × TypeNode)) (env : List Scope)
    (h : 0 < env.length) : (defineParams ps env).length = env.length := by
  induction ps generalizing env with
  | nil => simp [defineParams]
  | cons p ps ih =>
    rw [defineParams, ih _ (by rw [envDefine_length _ _ h]; exact h),
      envDefine_length _ _ h]

set_option maxHeartbeats 3200000 in
/-- Fuel-indexed induction: every checker visitor that returns normally
leaves the scope chain at its original depth (pushes are matched by pops on
every normal exit path). -/
theorem envLenAux : ∀ fuel : Nat,
    (∀ e st r st', evalE fuel e st = (.ok r, st') → 0 < st.environment.length →
      st'.environment.length = st.environment.length) ∧
    (∀ s st r st', execS fuel s st = (.ok r, st') → 0 < st.environment.length →
      st'.environment.length = st.environment.length) ∧
    (∀ stmts acc st r st', blockLoopC fuel stmts acc st = (.ok r, st') →
      0 < st.environment.length →
      st'.environment.length = st.environment.length) ∧
    (∀ args ps tok st r st', checkArgs fuel args ps tok st = (.ok r, st') →
      0 < st.environment.length →
      st'.environment.length = st.environment.length) := by
  intro fuel
  induction fuel with
  | zero =>
    refine ⟨?_, ?_, ?_, ?_⟩
    · intro e st r st' h
      simp [evalE] at h
    · intro s st r st' h
      simp [execS] at h
    · intro stmts acc st r st' h
      simp [blockLoopC] at h
    · intro args ps tok st r st' h
      simp [checkArgs] at h
  | succ f ih =>
    obtain ⟨ihE, ihS, ihB, ihA⟩ := ih
    refine ⟨?_, ?_, ?_, ?_⟩
    · -- evaluate
      intro e st r st' h hpos
      cases e with
      | assign name value =>
        simp only [evalE] at h
        split at h
        · simp_all
        · simp_all
        · rename_i variableType heq
          split at h
          · simp_all
          · rename_i valueType st1 h1
            split at h
            · simp_all
            · have e1 := ihE _ _ _ _ h1 hpos
              simp only [Prod.mk.injEq] at h
              obtain ⟨-, rfl⟩ := h
              exact e1
      | binary l op r' =>
        simp only [evalE] at h
        split at h
        · simp_all
        · rename_i lt st1 h1
          split at h
          · simp_all
          · rename_i rt st2 h2
            split at h
            · simp_all
            · have e1 := ihE _ _ _ _ h1 hpos
              have e2 := ihE _ _ _ _ h2 (by rw [e1]; exact hpos)
              split at h <;>
              · simp only [Prod.mk.injEq] at h
                obtain ⟨-, rfl⟩ := h
                rw [e2, e1]
      | call callee paren args =>
        simp only [evalE] at h
        split at h
        · -- callee is a variable reference
          split at h
          · simp_all
          · -- resolves to a function
            split at h
            · simp_all
            · split at h
              · simp_all
              · rename_i st1 hargs
                have e1 := ihA _ _ _ _ _ _ hargs hpos
                simp only [Prod.mk.injEq] at h
                obtain ⟨-, rfl⟩ := h
                exact e1
          · simp_all
        · -- any other callee: evaluated, then a hard error
          split at h
          · simp_all
          · simp_all
      | get o n s => 
        simp only [evalE, Prod.mk.injEq] at h
        obtain ⟨-, rfl⟩ := h
        rfl
      | grouping inner => exact ihE _ _ _ _ h hpos
      | literal v =>
        simp only [evalE, Prod.mk.injEq] at h
        obtain ⟨-, rfl⟩ := h
        rfl
      | logical l op r' =>
        simp only [evalE] at h
        split at h
        · simp_all
        · rename_i st1 h1
          split at h
          · simp_all
          · rename_i st2 h2
            have e1 := ihE _ _ _ _ h1 hpos
            have e2 := ihE _ _ _ _ h2 (by rw [e1]; exact hpos)
            simp only [Prod.mk.injEq] at h
            obtain ⟨-, rfl⟩ := h
            rw [e2, e1]
      | setE o n v s =>
        simp only [evalE, Prod.mk.injEq] at h
        obtain ⟨-, rfl⟩ := h
        rfl
      | thisE k =>
        simp only [evalE, Prod.mk.injEq] at h
        obtain ⟨-, rfl⟩ := h
        rfl
      | unary op r' => exact ihE _ _ _ _ h hpos
      | varE name =>
        simp only [evalE] at h
        split at h <;> simp_all
      | block stmts =>
        simp only [evalE] at h
        split at h
        · simp_all
        · simp only [Prod.mk.injEq] at h
          obtain ⟨-, rfl⟩ := h
          rfl
      | ifE c t e? =>
        simp only [evalE] at h
        split at h
        · simp_all
        · rename_i conditionT st1 h1
          split at h
          · simp_all
          · have e1 := ihE _ _ _ _ h1 hpos
            split at h
            · simp_all
            · rename_i thenT st2 h2
              have e2 := ihE _ _ _ _ h2 (by rw [e1]; exact hpos)
              split at h
              · -- else branch present
                split at h
                · simp_all
                · rename_i elseT st3 h3
                  have e3 := ihE _ _ _ _ h3 (by rw [e2, e1]; exact hpos)
                  split at h
                  · simp only [Prod.mk.injEq] at h
                    obtain ⟨-, rfl⟩ := h
                    rw [e3, e2, e1]
                  · simp_all
              · simp only [Prod.mk.injEq] at h
                obtain ⟨-, rfl⟩ := h
                rw [e2, e1]
      | whenE s en el =>
        simp only [evalE, Prod.mk.injEq] at h
        obtain ⟨-, rfl⟩ := h
        rfl
      | lambda p b =>
        simp only [evalE, Prod.mk.injEq] at h
        obtain ⟨-, rfl⟩ := h
        rfl
      | arrayLit es =>
        simp only [evalE, Prod.mk.injEq] at h
        obtain ⟨-, rfl⟩ := h
        rfl
      | indexGet o i =>
        simp only [evalE, Prod.mk.injEq] at h
        obtain ⟨-, rfl⟩ := h
        rfl
      | indexSet o i v =>
        simp only [evalE, Prod.mk.injEq] at h
        obtain ⟨-, rfl⟩ := h
        rfl
      | propagate inner op => exact ihE _ _ _ _ h hpos
      | cast e' ty op =>
        simp only [evalE, Prod.mk.injEq] at h
        obtain ⟨-, rfl⟩ := h
        rfl
    · -- execute
      intro s st r st' h hpos
      cases s with
      | expression e =>
        simp only [execS] at h
        split at h
        · simp_all
        · rename_i st1 h1
          have e1 := ihE _ _ _ _ h1 hpos
          simp only [Prod.mk.injEq] at h
          obtain ⟨-, rfl⟩ := h
          exact e1
      | funct fd =>
        simp only [execS] at h
        split at h
        · simp_all
        · rename_i bodyType st3 h1
          split at h
          · -- declared return type
            split at h
            · split at h
              · simp_all
              · simp only [Prod.mk.injEq] at h
                obtain ⟨-, rfl⟩ := h
                exact envDefine_length _ _ hpos
            · simp only [Prod.mk.injEq] at h
              obtain ⟨-, rfl⟩ := h
              exact envDefine_length _ _ hpos
          · simp only [Prod.mk.injEq] at h
            obtain ⟨-, rfl⟩ := h
            exact envDefine_length _ _ hpos
      | ret keyword value =>
        simp only [execS] at h
        split at h
        · simp_all
        · split at h
          · -- a return value is present
            split at h
            · simp_all
            · rename_i valueType st1 h1
              have e1 := ihE _ _ _ _ h1 hpos
              split at h
              · split at h
                · simp_all
                · simp only [Prod.mk.injEq] at h
                  obtain ⟨-, rfl⟩ := h
                  exact e1
              · simp only [Prod.mk.injEq] at h
                obtain ⟨-, rfl⟩ := h
                exact e1
          · -- no return value
            split at h
            · split at h
              · simp_all
              · simp only [Prod.mk.injEq] at h
                obtain ⟨-, rfl⟩ := h
                rfl
            · simp only [Prod.mk.injEq] at h
              obtain ⟨-, rfl⟩ := h
              rfl
      | var name init ty mu =>
        simp only [execS] at h
        split at h
        · simp_all
        · rename_i initializerType st1 h1
          have e1 := ihE _ _ _ _ h1 hpos
          split at h
          · split at h
            · simp_all
            · simp only [Prod.mk.injEq] at h
              obtain ⟨-, rfl⟩ := h
              simp only [envDefine_length _ _ (by rw [e1]; exact hpos)]
              exact e1
          · simp only [Prod.mk.injEq] at h
            obtain ⟨-, rfl⟩ := h
            simp only [envDefine_length _ _ (by rw [e1]; exact hpos)]
            exact e1
      | whileS c body =>
        simp only [execS] at h
        split at h
        · simp_all
        · rename_i conditionT st1 h1
          have e1 := ihE _ _ _ _ h1 hpos
          split at h
          · simp_all
          · split at h
            · simp_all
            · rename_i st2 h2
              have e2 := ihE _ _ _ _ h2 (by rw [e1]; exact hpos)
              simp only [Prod.mk.injEq] at h
              obtain ⟨-, rfl⟩ := h
              rw [e2, e1]
      | forS v it body =>
        simp only [execS] at h
        split at h
        · simp_all
        · rename_i st1 h1
          have e1 := ihE _ _ _ _ h1 hpos
          simp only [Prod.mk.injEq] at h
          obtain ⟨-, rfl⟩ := h
          exact e1
      | breakS k l =>
        simp only [execS, Prod.mk.injEq] at h
        obtain ⟨-, rfl⟩ := h
        rfl
      | continueS k l =>
        simp only [execS, Prod.mk.injEq] at h
        obtain ⟨-, rfl⟩ := h
        rfl
      | value n fs ms gs =>
        simp only [execS, Prod.mk.injEq] at h
        obtain ⟨-, rfl⟩ := h
        rfl
      | use p i t =>
        simp only [execS, Prod.mk.injEq] at h
        obtain ⟨-, rfl⟩ := h
        rfl
      | trait n ms =>
        simp only [execS, Prod.mk.injEq] at h
        obtain ⟨-, rfl⟩ := h
        rfl
    · -- the block statement fold
      intro stmts acc st r st' h hpos
      cases stmts with
      | nil =>
        simp only [blockLoopC, Prod.mk.injEq] at h
        obtain ⟨-, rfl⟩ := h
        rfl
      | cons s rest =>
        simp only [blockLoopC] at h
        split at h
        · rename_i e heq
          split at h
          · simp_all
          · rename_i t st1 h1
            have e1 := ihE _ _ _ _ h1 hpos
            have e2 := ihB _ _ _ _ _ h (by rw [e1]; exact hpos)
            rw [e2, e1]
        · split at h
          · simp_all
          · rename_i st1 h1
            have e1 := ihS _ _ _ _ h1 hpos
            have e2 := ihB _ _ _ _ _ h (by rw [e1]; exact hpos)
            rw [e2, e1]
    · -- the call-argument fold
      intro args ps tok st r st' h hpos
      match args, ps with
      | [], _ =>
        simp only [checkArgs, Prod.mk.injEq] at h
        obtain ⟨-, rfl⟩ := h
        rfl
      | a :: args, [] =>
        simp only [checkArgs, Prod.mk.injEq] at h
        obtain ⟨-, rfl⟩ := h
        rfl
      | a :: args, p :: ps =>
        simp only [checkArgs] at h
        split at h
        · simp_all
        · rename_i argType st1 h1
          have e1 := ihE _ _ _ _ h1 hpos
          split at h
          · simp_all
          · have e2 := ihA _ _ _ _ _ _ h (by rw [e1]; exact hpos)
            rw [e2, e1]


end Checker

/-!
## Fixtures and observations for the individual claims

Concrete token lists are spelled out and tied to their source text by a lex
equation inside the theorems, so that parser facts are stated on the very
tokens the repository's lexer produces.
-/

/-- A member test: does this type node have a member that is itself a union
(only a union node can)? This formalises the spec's "a union of unions never
appears" at the node where it would appear. -/
def unionMemberIsUnion : TypeNode → Bool
  | .union ts => ts.any fun t => match t with | .union _ => true | _ => false
  | _ => false

/-- The token sequence of `"trait T \x7b 1 \x7d"`: a trait body whose next
token is neither `fun` nor `\x7d`. -/
def traitToks : List Token :=
  [⟨.TRAIT, "trait", .null, 1, 1⟩, ⟨.IDENTIFIER, "T", .null, 1, 7⟩,
   ⟨.LEFT_BRACE, "\x7b", .null, 1, 9⟩, ⟨.INTEGER, "1", .num ⟨1, 1⟩, 1, 11⟩,
   ⟨.RIGHT_BRACE, "\x7d", .null, 1, 13⟩, ⟨.EOF, "", .null, 1, 14⟩]

/-- Exhaustion of every finite budget in the fuel model: the source parser,
whose loops the fuel counts, never returns on this input. -/
def parseNeverReturns (toks : List Token) : Prop :=
  ∀ fuel, (Parser.parse fuel (Parser.pInit toks)).1 = Except.error Parser.PErr.fuelOut

/-- One iteration of the trait-body loop at the stuck state consumes nothing
and records nothing, so the state repeats and every budget is exhausted. -/
theorem traitBody_stuck (ms : List FunctionDecl) :
    ∀ f, Parser.traitBody f ms ⟨traitToks, 3, []⟩ =
      (.error .fuelOut, ⟨traitToks, 3, []⟩) := by
  intro f
  induction f with
  | zero => rfl
  | succ f ih => exact ih

def c1Toks : List Token :=
  [⟨.VAL, "val", .null, 1, 1⟩, ⟨.IDENTIFIER, "p", .null, 1, 5⟩,
   ⟨.EQUAL, "=", .null, 1, 7⟩, ⟨.IDENTIFIER, "Point", .null, 1, 9⟩,
   ⟨.LEFT_PAREN, "(", .null, 1, 14⟩, ⟨.FLOAT, "1.0", .num ⟨10, 10⟩, 1, 15⟩,
   ⟨.IDENTIFIER, "f", .null, 1, 18⟩, ⟨.COMMA, ",", .null, 1, 19⟩,
   ⟨.FLOAT, "2.0", .num ⟨20, 10⟩, 1, 21⟩, ⟨.IDENTIFIER, "f", .null, 1, 24⟩,
   ⟨.RIGHT_PAREN, ")", .null, 1, 25⟩, ⟨.SEMICOLON, ";", .null, 1, 26⟩,
   ⟨.VAL, "val", .null, 1, 28⟩, ⟨.IDENTIFIER, "q", .null, 1, 32⟩,
   ⟨.EQUAL, "=", .null, 1, 34⟩, ⟨.INTEGER, "1", .num ⟨1, 1⟩, 1, 36⟩,
   ⟨.SEMICOLON, ";", .null, 1, 37⟩, ⟨.EOF, "", .null, 1, 38⟩]

def c3Toks : List Token :=
  [⟨.INTEGER, "1", .num ⟨1, 1⟩, 1, 1⟩, ⟨.EQUAL, "=", .null, 1, 3⟩,
   ⟨.INTEGER, "2", .num ⟨2, 1⟩, 1, 5⟩, ⟨.SEMICOLON, ";", .null, 1, 6⟩,
   ⟨.EOF, "", .null, 1, 7⟩]

def c6Toks : List Token :=
  [⟨.VAL, "val", .null, 1, 1⟩, ⟨.IDENTIFIER, "x", .null, 1, 5⟩,
   ⟨.COLON, ":", .null, 1, 6⟩, ⟨.LEFT_PAREN, "(", .null, 1, 8⟩,
   ⟨.IDENTIFIER, "A", .null, 1, 9⟩, ⟨.PIPE, "|", .null, 1, 11⟩,
   ⟨.IDENTIFIER, "B", .null, 1, 13⟩, ⟨.RIGHT_PAREN, ")", .null, 1, 14⟩,
   ⟨.PIPE, "|", .null, 1, 16⟩, ⟨.IDENTIFIER, "C", .null, 1, 18⟩,
   ⟨.EQUAL, "=", .null, 1, 20⟩, ⟨.IDENTIFIER, "y", .null, 1, 22⟩,
   ⟨.SEMICOLON, ";", .null, 1, 23⟩, ⟨.EOF, "", .null, 1, 24⟩]

/-- The type tree parsed for `(A | B) | C`: a union whose first member is
itself a union. -/
def c6NestedType : TypeNode :=
  .union [.union [.named ⟨.IDENTIFIER, "A", .null, 1, 9⟩ [],
                  .named ⟨.IDENTIFIER, "B", .null, 1, 13⟩ []],
          .named ⟨.IDENTIFIER, "C", .null, 1, 18⟩ []]

/-- Tokens of the bare type text `A | B | C`. -/
def c6FlatToks : List Token :=
  [⟨.IDENTIFIER, "A", .null, 1, 1⟩, ⟨.PIPE, "|", .null, 1, 3⟩,
   ⟨.IDENTIFIER, "B", .null, 1, 5⟩, ⟨.PIPE, "|", .null, 1, 7⟩,
   ⟨.IDENTIFIER, "C", .null, 1, 9⟩, ⟨.EOF, "", .null, 1, 10⟩]

/-- Tokens of the bare type text `(A | B) | C`. -/
def c6GroupToks : List Token :=
  [⟨.LEFT_PAREN, "(", .null, 1, 1⟩, ⟨.IDENTIFIER, "A", .null, 1, 2⟩,
   ⟨.PIPE, "|", .null, 1, 4⟩, ⟨.IDENTIFIER, "B", .null, 1, 6⟩,
   ⟨.RIGHT_PAREN, ")", .null, 1, 7⟩, ⟨.PIPE, "|", .null, 1, 9⟩,
   ⟨.IDENTIFIER, "C", .null, 1, 11⟩, ⟨.EOF, "", .null, 1, 12⟩]

def c8Toks : List Token :=
  [⟨.VAL, "val", .null, 1, 1⟩, ⟨.IDENTIFIER, "x", .null, 1, 5⟩,
   ⟨.EQUAL, "=", .null, 1, 7⟩, ⟨.INTEGER, "1", .num ⟨1, 1⟩, 1, 9⟩,
   ⟨.SEMICOLON, ";", .null, 1, 10⟩, ⟨.EOF, "", .null, 1, 11⟩]

def c8Stmts : List Stmt :=
  [Stmt.var ⟨.IDENTIFIER, "x", .null, 1, 5⟩ (Expr.literal (.num ⟨1, 1⟩)) none false]

/-- Tokens of the canonical text `(val x 1)` that the printer produces. -/
def c8RenderedToks : List Token :=
  [⟨.LEFT_PAREN, "(", .null, 1, 1⟩, ⟨.VAL, "val", .null, 1, 2⟩,
   ⟨.IDENTIFIER, "x", .null, 1, 6⟩, ⟨.INTEGER, "1", .num ⟨1, 1⟩, 1, 8⟩,
   ⟨.RIGHT_PAREN, ")", .null, 1, 9⟩, ⟨.EOF, "", .null, 1, 10⟩]

/-- An expression that is never evaluated when it sits under a cast
(`visitCastExpr` returns the target type without visiting its operand). -/
def dummyOperand : Expr := Expr.literal .null

def castTok : Token := ⟨.AS, "as", .null, 0, 0⟩

def i32N : TypeNode := .named ⟨.IDENTIFIER, "i32", .null, 1, 1⟩ []

def stringN : TypeNode := .named ⟨.IDENTIFIER, "String", .null, 1, 1⟩ []

def addTok : Token := ⟨.IDENTIFIER, "add", .null, 1, 1⟩

def paramTok : Token := ⟨.IDENTIFIER, "p", .null, 1, 1⟩

def c2Paren : Token := ⟨.RIGHT_PAREN, ")", .null, 1, 20⟩

/-- A call of `add` whose positional arguments derive exactly the given
types (casts make the derived types free parameters). -/
def mkCall (ats : List TypeNode) : Expr :=
  Expr.call (Expr.varE addTok) c2Paren
    (ats.map fun t => (none, Expr.cast dummyOperand t castTok))

/-- A declaration of `add` whose parameters have exactly the given declared
types. -/
def mkFn (pts : List TypeNode) : FunctionDecl :=
  .mk addTok (pts.map fun t => (paramTok, t)) (some i32N) (Expr.block []) [] false

/-- A checker state in which `add` is bound to `mkFn pts`. -/
def c2State (pts : List TypeNode) : Checker.CState :=
  ⟨[[("add", .fn (mkFn pts))]], none⟩

/-- The first parameter/argument pair the checker's in-order argument loop
finds incompatible. -/
def firstMismatch : List (TypeNode × TypeNode) → Option (TypeNode × TypeNode)
  | [] => none
  | (p, a) :: rest =>
    if Checker.isTypeCompatible p a then firstMismatch rest else some (p, a)

/-- Evaluating a cast yields its target type unconditionally and leaves the
state unchanged, for any positive fuel. -/
theorem evalE_cast (g : Nat) (hg : 0 < g) (e : Expr) (t : TypeNode) (tok : Token)
    (st : Checker.CState) : Checker.evalE g (Expr.cast e t tok) st = (.ok t, st) := by
  obtain ⟨h, rfl⟩ : ∃ h, g = h + 1 := ⟨g - 1, by omega⟩
  rfl

/-- The argument loop of `visitCallExpr` stops at the first incompatible
pair, raising its diagnostic; with no incompatible pair it returns
normally. -/
theorem checkArgsCast : ∀ (ats pts : List TypeNode) (f : Nat) (st : Checker.CState),
    pts.length = ats.length → ats.length < f →
    Checker.checkArgs f (ats.map fun t => (none, Expr.cast dummyOperand t castTok))
      (pts.map fun t => (paramTok, t)) c2Paren st =
    (match firstMismatch (pts.zip ats) with
     | some (p, a) => (.error (.thrown ⟨c2Paren, "Expected type " ++
         Checker.typeToString p ++ ", but got " ++ Checker.typeToString a ++ "."⟩), st)
     | none => (.ok (), st)) := by
  intro ats
  induction ats with
  | nil =>
    intro pts f st hlen hf
    simp only [List.length_nil, List.length_eq_zero] at hlen
    subst hlen
    obtain ⟨g, rfl⟩ : ∃ g, f = g + 1 := ⟨f - 1, by omega⟩
    simp [Checker.checkArgs, firstMismatch]
  | cons a as ih =>
    intro pts f st hlen hf
    cases pts with
    | nil => simp at hlen
    | cons p ps =>
      simp only [List.length_cons, Nat.succ.injEq] at hlen
      obtain ⟨g, rfl⟩ : ∃ g, f = g + 1 := ⟨f - 1, by omega⟩
      have hg : as.length < g := by
        simp only [List.length_cons] at hf
        omega
      simp only [List.map_cons, Checker.checkArgs]
      rw [evalE_cast g (by omega)]
      rcases Bool.eq_false_or_eq_true (Checker.isTypeCompatible p a) with hc | hc <;>
        simp only [Checker.checkType, hc, List.zip_cons_cons, firstMismatch,
          Bool.false_eq_true, ite_false, ite_true]
      · exact ih ps g st hlen hg

/-- A call with the wrong number of arguments raises exactly the counted
message, before any argument is examined. -/
theorem c2CountPart : ∀ (f : Nat) (pts ats : List TypeNode), pts.length ≠ ats.length →
    Checker.evalE (f + 1) (mkCall ats) (c2State pts) =
    (.error (.thrown ⟨c2Paren, "Expected " ++ toString pts.length ++
      " arguments but got " ++ toString ats.length ++ "."⟩), c2State pts) := by
  intro f pts ats hne
  have hcond : (ats.map fun t => ((none : Option Token), Expr.cast dummyOperand t castTok)).length ≠
      (pts.map fun t => (paramTok, t)).length := by
    simpa using fun h => hne h.symm
  simp only [Checker.evalE, mkCall, c2State, Checker.envGet, List.find?, addTok, mkFn,
    beq_self_eq_true, FunctionDecl.params, FunctionDecl.returnType]
  rw [if_pos hcond]
  simp [List.length_map]

/-- A call with matching argument count raises one diagnostic for the first
mismatched position, or none when every position is compatible. -/
theorem c2MismatchPart : ∀ (f : Nat) (pts ats : List TypeNode), pts.length = ats.length →
    ats.length < f →
    Checker.evalE (f + 1) (mkCall ats) (c2State pts) =
    (match firstMismatch (pts.zip ats) with
     | some (p, a) => (.error (.thrown ⟨c2Paren, "Expected type " ++
         Checker.typeToString p ++ ", but got " ++ Checker.typeToString a ++ "."⟩), c2State pts)
     | none => (.ok i32N, c2State pts)) := by
  intro f pts ats hlen hf
  have hcond : ¬((ats.map fun t => ((none : Option Token), Expr.cast dummyOperand t castTok)).length ≠
      (pts.map fun t => (paramTok, t)).length) := by
    simp [hlen]
  simp only [Checker.evalE, mkCall, c2State, Checker.envGet, List.find?, addTok, mkFn,
    beq_self_eq_true, FunctionDecl.params, FunctionDecl.returnType]
  rw [if_neg hcond]
  rw [checkArgsCast ats pts f _ hlen hf]
  rcases h : firstMismatch (pts.zip ats) with - | ⟨p, a⟩ <;> simp [h, Option.getD, i32N]

/-- The two-mismatch program of claim C2: `add` declared with two `i32`
parameters, then called with two string literals. -/
def c2BadProg : List Stmt :=
  [Stmt.funct (mkFn [i32N, i32N]),
   Stmt.expression (Expr.call (Expr.varE addTok) c2Paren
     [(none, Expr.literal (.str "x")), (none, Expr.literal (.str "y"))])]

def c4xTok : Token := ⟨.IDENTIFIER, "x", .null, 1, 1⟩

/-- A statement whose checking raises inside a block: `if (true) \x7b var x:
i32 = "s"; \x7d` as an expression statement. -/
def c4BadStmt : Stmt :=
  Stmt.expression (Expr.ifE (Expr.literal (.bool true))
    (Expr.block [Stmt.var c4xTok (Expr.literal (.str "s")) (some i32N) false]) none)

/-- A statement whose checking succeeds after entering and leaving a block
scope. -/
def c4GoodStmt : Stmt :=
  Stmt.expression (Expr.block [Stmt.var c4xTok (Expr.literal (.num ⟨1, 1⟩)) none false])

def eqeqTok : Token := ⟨.EQUAL_EQUAL, "==", .null, 1, 3⟩

/-- The program `1 == "s";` of claim C5. -/
def c5Prog : List Stmt :=
  [Stmt.expression (Expr.binary (Expr.literal (.num ⟨1, 1⟩)) eqeqTok
    (Expr.literal (.str "s")))]

def testTok : Token := ⟨.IDENTIFIER, "test", .null, 1, 5⟩

/-- A function declaring return type `i32` whose block body ends in a
non-expression statement, hence derives `Unit`. -/
def c7UnitBodyFn : List Stmt :=
  [Stmt.funct (.mk testTok [] (some i32N)
    (Expr.block [Stmt.var c4xTok (Expr.literal (.num ⟨10, 1⟩)) none false]) [] false)]

/-- A function declaring return type `i32` whose block body derives
`String`. -/
def c7MismatchFn : List Stmt :=
  [Stmt.funct (.mk testTok [] (some i32N)
    (Expr.block [Stmt.expression (Expr.literal (.str "s"))]) [] false)]

/-!
## Staged evaluations of the longer concrete parses

The recovery example and the nested-union example are parsed in stages —
the inner expression or type first, then the enclosing declaration, then
the parse loop — so that each equation stays small.
-/

def c1Err : String := "[line 1] Error at 'f': Expect ')' after arguments."

/-- Inside `val p = ...`, the initializer expression throws at the stray
`f` after the first float argument. -/
theorem c1_expr_throws : Parser.expression 297 ⟨c1Toks, 3, []⟩ =
    (.error (.thrown c1Err), ⟨c1Toks, 6, []⟩) := rfl

/-- Synchronization from the throw site discards tokens up to and including
the semicolon. -/
theorem c1_sync : Parser.synchronize 298 ⟨c1Toks, 6, [c1Err]⟩ =
    (.ok (), ⟨c1Toks, 12, [c1Err]⟩) := rfl

/-- The first declaration attempt catches the throw, records one
diagnostic, synchronizes, and yields no statement. -/
theorem c1_first_declaration : Parser.declaration 299 ⟨c1Toks, 0, []⟩ =
    (.ok none, ⟨c1Toks, 12, [c1Err]⟩) := by
  have hE := c1_expr_throws
  have hS := c1_sync
  simp only [c1Toks] at hE hS ⊢
  simp [Parser.declaration, Parser.pcatch, Parser.valDeclaration, Parser.consumeTk,
    Parser.checkTk, Parser.matchTk, Parser.isAtEndT, Parser.peekT, Parser.previousT,
    Parser.advanceT, Parser.bumpCurrent, Parser.eofFallback, Parser.pushErr,
    bind, pure, hE, hS]

/-- The second declaration parses normally after recovery. -/
theorem c1_second_declaration : Parser.declaration 298 ⟨c1Toks, 12, [c1Err]⟩ =
    (.ok (some (Stmt.var ⟨.IDENTIFIER, "q", .null, 1, 32⟩
      (Expr.literal (.num ⟨1, 1⟩)) none false)),
     ⟨c1Toks, 17, [c1Err]⟩) := rfl

/-- The assembled run of `parse()` on the recovery example. -/
theorem c1_parse_assembled : Parser.runParse 300 c1Toks =
    (.ok [Stmt.var ⟨.IDENTIFIER, "q", .null, 1, 32⟩
        (Expr.literal (.num ⟨1, 1⟩)) none false],
     ⟨c1Toks, 17, [c1Err]⟩) := by
  have hA := c1_first_declaration
  have hB := c1_second_declaration
  simp only [c1Toks] at hA hB ⊢
  simp [Parser.runParse, Parser.parse, Parser.parseLoop, Parser.pInit, Parser.isAtEndT,
    Parser.peekT, Parser.eofFallback, bind, pure, hA, hB]

/-- The declared type of `val x: (A | B) | C = y;` parses to the nested
union. -/
theorem c6_type_parse : Parser.parseType 297 ⟨c6Toks, 3, []⟩ =
    (.ok c6NestedType, ⟨c6Toks, 10, []⟩) := rfl

theorem c6_init_expr : Parser.expression 297 ⟨c6Toks, 11, []⟩ =
    (.ok (Expr.varE ⟨.IDENTIFIER, "y", .null, 1, 22⟩), ⟨c6Toks, 12, []⟩) := rfl

theorem c6_declaration : Parser.declaration 299 ⟨c6Toks, 0, []⟩ =
    (.ok (some (Stmt.var ⟨.IDENTIFIER, "x", .null, 1, 5⟩
      (Expr.varE ⟨.IDENTIFIER, "y", .null, 1, 22⟩) (some c6NestedType) false)),
     ⟨c6Toks, 13, []⟩) := by
  have hT := c6_type_parse
  have hE := c6_init_expr
  simp only [c6Toks] at hT hE ⊢
  simp [Parser.declaration, Parser.pcatch, Parser.valDeclaration, Parser.consumeTk,
    Parser.checkTk, Parser.matchTk, Parser.isAtEndT, Parser.peekT, Parser.previousT,
    Parser.advanceT, Parser.bumpCurrent, Parser.eofFallback, bind, pure, hT, hE]

theorem c6_parse_assembled : Parser.runParse 300 c6Toks =
    (.ok [Stmt.var ⟨.IDENTIFIER, "x", .null, 1, 5⟩
        (Expr.varE ⟨.IDENTIFIER, "y", .null, 1, 22⟩) (some c6NestedType) false],
     ⟨c6Toks, 13, []⟩) := by
  have hA := c6_declaration
  simp only [c6Toks] at hA ⊢
  simp [Parser.runParse, Parser.parse, Parser.parseLoop, Parser.pInit, Parser.isAtEndT,
    Parser.peekT, Parser.eofFallback, bind, pure, hA]

theorem c8_parse_src : Parser.runParse 300 c8Toks = (.ok c8Stmts, ⟨c8Toks, 5, []⟩) := rfl

theorem c8_parse_rendered : Parser.runParse 300 c8RenderedToks =
    (.ok [], ⟨c8RenderedToks, 5, ["[line 1] Error at 'val': Expect expression."]⟩) := rfl

theorem c8_render : renderProgram 300 c8Stmts = "(val x 1)" := rfl

/-!
## The claims
-/

/-- C1 (counterexample): the claim "for every EOF-terminated token sequence
parse returns normally" is false: on the EOF-terminated token sequence of
`trait T \x7b 1 \x7d` the parser exhausts every finite fuel budget — the
source's trait-body loop constructs an error for the unexpected token,
discards it, and repeats without consuming anything, so `parse` never
returns. -/
theorem c1_counterexample_nontermination :
    (traitToks.map Token.type).getLast? = some TokenType.EOF ∧
    parseNeverReturns traitToks := by
  refine ⟨rfl, ?_⟩
  intro fuel
  match fuel with
  | 0 => rfl
  | 1 => rfl
  | 2 => rfl
  | (f + 3) =>
    have h := traitBody_stuck [] f
    simp only [traitToks] at h
    simp [Parser.parse, Parser.parseLoop, Parser.pInit, Parser.declaration,
      Parser.pcatch, Parser.traitDeclaration, Parser.consumeTk, Parser.checkTk,
      Parser.matchTk, Parser.isAtEndT, Parser.peekT, Parser.previousT,
      Parser.advanceT, Parser.bumpCurrent, Parser.eofFallback, Parser.pfuel,
      bind, pure, traitToks, h]

/-- C1 (amended): on inputs where its loops make progress the parser returns
normally with statements and recorded diagnostics, one diagnostic per
malformed top-level declaration followed by synchronization: lexing
`"val p = Point(1.0f, 2.0f); val q = 1;"` and parsing the resulting tokens
returns normally with exactly one statement — the `val q = 1` declaration —
and exactly one recorded syntax diagnostic, from the malformed first
declaration (the invalid suffix `f` breaks the argument list). -/
theorem c1_recovery_example :
    Lexer.lex "val p = Point(1.0f, 2.0f); val q = 1;" = .ok c1Toks ∧
    Parser.runParse 300 c1Toks =
      (.ok [Stmt.var ⟨.IDENTIFIER, "q", .null, 1, 32⟩ (Expr.literal (.num ⟨1, 1⟩)) none false],
       ⟨c1Toks, 17, [c1Err]⟩) :=
  ⟨rfl, c1_parse_assembled⟩

/-- C2 (counterexample): checking a call of `add(a: i32, b: i32)` with two
mismatched string arguments yields exactly one diagnostic — for the first
position — not one per mismatched position as the claim states (k = 2 would
require two). -/
theorem c2_counterexample_two_mismatches :
    Checker.checkFresh 100 c2BadProg =
      [⟨c2Paren, "Expected type i32, but got String."⟩] ∧
    (Checker.checkFresh 100 c2BadProg).length ≠ 2 :=
  ⟨rfl, by decide⟩

/-- C2 (amended): for every call of a declared function through casts that
fix the argument types, a matching argument count with mismatched positions
yields exactly one semantic diagnostic, reporting expected and actual type
names of the first mismatched position (checking of that call stops there);
a mismatched argument count yields exactly one diagnostic of the form
"Expected N arguments but got M.". -/
theorem c2_first_mismatch_only :
    (∀ (f : Nat) (pts ats : List TypeNode), pts.length = ats.length →
      ats.length < f →
      Checker.evalE (f + 1) (mkCall ats) (c2State pts) =
      (match firstMismatch (pts.zip ats) with
       | some (p, a) => (.error (.thrown ⟨c2Paren, "Expected type " ++
           Checker.typeToString p ++ ", but got " ++ Checker.typeToString a ++ "."⟩),
           c2State pts)
       | none => (.ok i32N, c2State pts))) ∧
    (∀ (f : Nat) (pts ats : List TypeNode), pts.length ≠ ats.length →
      Checker.evalE (f + 1) (mkCall ats) (c2State pts) =
      (.error (.thrown ⟨c2Paren, "Expected " ++ toString pts.length ++
        " arguments but got " ++ toString ats.length ++ "."⟩), c2State pts)) :=
  ⟨c2MismatchPart, c2CountPart⟩

/-- C2 (witness): the theorem applied at two mismatched string arguments
against two `i32` parameters, and at a one-argument call of the same
function. -/
theorem c2_witness :
    Checker.evalE 10 (mkCall [stringN, stringN]) (c2State [i32N, i32N]) =
      (.error (.thrown ⟨c2Paren, "Expected type i32, but got String."⟩),
        c2State [i32N, i32N]) ∧
    Checker.evalE 10 (mkCall [i32N]) (c2State [i32N, i32N]) =
      (.error (.thrown ⟨c2Paren, "Expected 2 arguments but got 1."⟩),
        c2State [i32N, i32N]) :=
  ⟨c2_first_mismatch_only.1 9 [i32N, i32N] [stringN, stringN] (by decide) (by decide),
   c2_first_mismatch_only.2 9 [i32N, i32N] [i32N] (by decide)⟩

/-- C3 (code bug): parsing `1 = 2;` — an assignment whose left side is
neither a variable, a member access nor an indexing — succeeds with ZERO
recorded syntax diagnostics and yields the bare left-hand literal: the
source constructs the "Invalid assignment target." error but neither throws
nor records it, so the malformed target is silently accepted, against the
claim and the spec's stated contract. -/
theorem c3_silent_acceptance :
    Lexer.lex "1 = 2;" = .ok c3Toks ∧
    Parser.runParse 300 c3Toks =
      (.ok [Stmt.expression (Expr.literal (.num ⟨1, 1⟩))], ⟨c3Toks, 4, []⟩) :=
  ⟨rfl, rfl⟩

/-- C4 (counterexample): when a `CheckerError` is raised partway through
checking a block — here `if (true) \x7b var x: i32 = "s"; \x7d` — the
pushed scope is NOT popped: the environment afterwards has two scopes where
the fresh checker had one, because `visitBlockExpr` restores the previous
environment only on its normal path. -/
theorem c4_counterexample_scope_leak :
    Checker.execS 100 c4BadStmt Checker.initCState =
      (.error (.thrown ⟨c4xTok, "Expected type i32, but got String."⟩),
        ⟨[[], []], none⟩) ∧
    ([[], []] : List Checker.Scope).length ≠ Checker.initCState.environment.length :=
  ⟨rfl, by decide⟩

/-- C4 (amended): on every exit path that returns normally, the checker's
scope chain is restored to its depth before the statement began (pushes are
paired with pops); only a raised `CheckerError` skips the restore. -/
theorem c4_depth_restored_on_success (fuel : Nat) (s : Stmt) (st : Checker.CState)
    (r : Unit) (st' : Checker.CState)
    (h : Checker.execS fuel s st = (.ok r, st'))
    (hpos : 0 < st.environment.length) :
    st'.environment.length = st.environment.length :=
  (Checker.envLenAux fuel).2.1 s st r st' h hpos

/-- C4 (witness): the theorem applied to a block statement that pushes and
pops one scope on a fresh checker. -/
theorem c4_witness :
    Checker.execS 10 c4GoodStmt Checker.initCState = (.ok (), Checker.initCState) ∧
    0 < Checker.initCState.environment.length ∧
    Checker.initCState.environment.length = Checker.initCState.environment.length :=
  ⟨rfl, by decide,
   c4_depth_restored_on_success 10 c4GoodStmt Checker.initCState () Checker.initCState
     rfl (by decide)⟩

/-- C5 (counterexample): checking the equality `1 == "s"` of two
differently-typed operands DOES produce a diagnostic — `visitBinaryExpr`
runs the operand-compatibility check before distinguishing the operator —
against the claim that no compatibility check is performed for equality. -/
theorem c5_counterexample_equality_checked :
    Checker.checkFresh 100 c5Prog =
      [⟨eqeqTok, "Expected type i32, but got String."⟩] ∧
    ([⟨eqeqTok, "Expected type i32, but got String."⟩] : List Checker.CheckerError) ≠ [] :=
  ⟨rfl, by decide⟩

/-- C5 (amended): every binary operator — comparison and equality included —
first requires the right operand's type to be compatible with the left's,
raising the expected/actual diagnostic otherwise; on compatible operands the
comparison and equality operators (==, !=, <, <=, >, >=) yield the Boolean
type and every other operator yields the left operand's type. -/
theorem c5_binary_operator_typing (l r : TypeNode) (op : Token) (f : Nat)
    (st : Checker.CState) :
    Checker.evalE (f + 2)
      (Expr.binary (Expr.cast dummyOperand l castTok) op
        (Expr.cast dummyOperand r castTok)) st =
    (if Checker.isTypeCompatible l r then
       if Checker.isComparisonOp op.type then (.ok Checker.booleanType, st)
       else (.ok l, st)
     else (.error (.thrown ⟨op, "Expected type " ++ Checker.typeToString l ++
       ", but got " ++ Checker.typeToString r ++ "."⟩), st)) := by
  rcases Bool.eq_false_or_eq_true (Checker.isTypeCompatible l r) with hc | hc <;>
    simp [Checker.evalE, Checker.checkType, hc]

/-- C6 (counterexample): a tree produced by `parse` CAN contain a union node
with a union member: parsing `val x: (A | B) | C = y;` yields the declared
type `(A | B) | C` as a union whose first member is itself a union — the
splice in `parseType` flattens only when the right-hand side of `|` is a
union. -/
theorem c6_counterexample_nested_union :
    Lexer.lex "val x: (A | B) | C = y;" = .ok c6Toks ∧
    Parser.runParse 300 c6Toks =
      (.ok [Stmt.var ⟨.IDENTIFIER, "x", .null, 1, 5⟩
          (Expr.varE ⟨.IDENTIFIER, "y", .null, 1, 22⟩) (some c6NestedType) false],
       ⟨c6Toks, 13, []⟩) ∧
    unionMemberIsUnion c6NestedType = true :=
  ⟨rfl, c6_parse_assembled, rfl⟩

/-- C6 (amended): parsing the type `A | B | C` produces a single union node
with exactly three flat members A, B, C — the right-recursive parse of `|`
splices an already-union right-hand side — while a parenthesized union on
the left of `|` remains a nested member. -/
theorem c6_flattening_on_right :
    Parser.parseType 50 ⟨c6FlatToks, 0, []⟩ =
      (.ok (TypeNode.union [.named ⟨.IDENTIFIER, "A", .null, 1, 1⟩ [],
                            .named ⟨.IDENTIFIER, "B", .null, 1, 5⟩ [],
                            .named ⟨.IDENTIFIER, "C", .null, 1, 9⟩ []]),
       ⟨c6FlatToks, 5, []⟩) ∧
    ([TypeNode.named ⟨.IDENTIFIER, "A", .null, 1, 1⟩ [],
      TypeNode.named ⟨.IDENTIFIER, "B", .null, 1, 5⟩ [],
      TypeNode.named ⟨.IDENTIFIER, "C", .null, 1, 9⟩ []].length = 3) ∧
    unionMemberIsUnion (TypeNode.union
      [.named ⟨.IDENTIFIER, "A", .null, 1, 1⟩ [],
       .named ⟨.IDENTIFIER, "B", .null, 1, 5⟩ [],
       .named ⟨.IDENTIFIER, "C", .null, 1, 9⟩ []]) = false ∧
    Parser.parseType 50 ⟨c6GroupToks, 0, []⟩ =
      (.ok (TypeNode.union [.union [.named ⟨.IDENTIFIER, "A", .null, 1, 2⟩ [],
                                    .named ⟨.IDENTIFIER, "B", .null, 1, 6⟩ []],
                            .named ⟨.IDENTIFIER, "C", .null, 1, 11⟩ []]),
       ⟨c6GroupToks, 7, []⟩) :=
  ⟨rfl, rfl, rfl, rfl⟩

/-- C7: for every function declaration with a declared return type, the
checker reports the expected/actual diagnostic when the body's derived type
mismatches the declared return type, EXCEPT when the body derives the Unit
type, which is accepted with no diagnostic regardless of the declared
return type. The universal part fixes the body's derived type through a
cast (which derives its target type for free); the two concrete programs
exercise real block bodies: a body ending in a declaration derives Unit and
passes against `i32`, a body deriving String against `i32` yields the one
diagnostic. -/
theorem c7_return_type_check_unit_exempt :
    (∀ (f : Nat) (name : Token) (params : List (Token × TypeNode))
      (rt bt : TypeNode) (st : Checker.CState),
      (Checker.execS (f + 2)
        (Stmt.funct (.mk name params (some rt)
          (Expr.cast dummyOperand bt castTok) [] false)) st).1 =
      (if Checker.typeToString bt = "Unit" then .ok ()
       else if Checker.isTypeCompatible rt bt then .ok ()
       else .error (.thrown ⟨name, "Expected type " ++ Checker.typeToString rt ++
         ", but got " ++ Checker.typeToString bt ++ "."⟩))) ∧
    Checker.checkFresh 100 c7UnitBodyFn = [] ∧
    Checker.checkFresh 100 c7MismatchFn =
      [⟨testTok, "Expected type i32, but got String."⟩] := by
  refine ⟨?_, rfl, rfl⟩
  intro f name params rt bt st
  by_cases hu : Checker.typeToString bt = "Unit"
  · simp [Checker.execS, Checker.evalE, FunctionDecl.body, FunctionDecl.returnType,
      FunctionDecl.params, FunctionDecl.name, hu]
  · rcases Bool.eq_false_or_eq_true (Checker.isTypeCompatible rt bt) with hc | hc <;>
      simp [Checker.execS, Checker.evalE, FunctionDecl.body, FunctionDecl.returnType,
        FunctionDecl.params, FunctionDecl.name, Checker.checkType, hu, hc]

/-- C8 (counterexample): the render/parse round trip is NOT stable after one
iteration: `val x = 1;` renders to the canonical text `(val x 1)`, but
re-parsing that text produces no statements and one syntax diagnostic, and
rendering the empty result gives the empty text, which differs from
`(val x 1)`. -/
theorem c8_counterexample_round_trip_unstable :
    Lexer.lex "val x = 1;" = .ok c8Toks ∧
    Parser.runParse 300 c8Toks = (.ok c8Stmts, ⟨c8Toks, 5, []⟩) ∧
    renderProgram 300 c8Stmts = "(val x 1)" ∧
    Lexer.lex "(val x 1)" = .ok c8RenderedToks ∧
    Parser.runParse 300 c8RenderedToks =
      (.ok [], ⟨c8RenderedToks, 5, ["[line 1] Error at 'val': Expect expression."]⟩) ∧
    renderProgram 300 ([] : List Stmt) ≠ renderProgram 300 c8Stmts :=
  ⟨rfl, c8_parse_src, c8_render, rfl, c8_parse_rendered, by decide⟩

/-- C8 (amended): the printer's canonical text is an s-expression diagnostic
form that the language parser does not accept, so the round trip degrades
rather than stabilizes after one iteration; it reaches the empty fixed
point instead — re-parsing `(val x 1)` yields the empty statement list
(with one diagnostic), the empty list renders to the empty text, and the
empty text parses to the empty list again. -/
theorem c8_rendered_text_not_reparseable :
    Parser.runParse 300 c8RenderedToks =
      (.ok [], ⟨c8RenderedToks, 5, ["[line 1] Error at 'val': Expect expression."]⟩) ∧
    renderProgram 300 ([] : List Stmt) = "" ∧
    Lexer.lex "" = .ok [⟨.EOF, "", .null, 1, 1⟩] ∧
    Parser.runParse 300 [⟨.EOF, "", .null, 1, 1⟩] =
      (.ok [], ⟨[⟨.EOF, "", .null, 1, 1⟩], 0, []⟩) :=
  ⟨c8_parse_rendered, rfl, rfl, rfl⟩

/-- C9: after `check(statements)` completes on a fresh checker, `getErrors()`
returns at most one diagnostic, for every fuel budget and statement list:
the only collection point is the single catch around the loop over
top-level statements, and the first caught error ends the loop. -/
theorem c9_at_most_one_diagnostic :
    ∀ (fuel : Nat) (stmts : List Stmt), (Checker.checkFresh fuel stmts).length ≤ 1 := by
  intro fuel stmts
  suffices h : ∀ (stmts : List Stmt) (st : Checker.CState),
      ((Checker.checkProgram fuel stmts st).1).length ≤ 1 from h stmts _
  intro stmts
  induction stmts with
  | nil => intro st; simp [Checker.checkProgram]
  | cons s rest ih =>
    intro st
    simp only [Checker.checkProgram]
    split
    · exact ih _
    · simp
    · simp

/-- C10: the checker types a numeric literal by its decoded runtime value,
not its written token kind: the lexer decodes the float-form literal `1.0`
to the (integral) value 10/10, whose literal expression derives `i32`; in
general a numeric literal derives `i32` exactly when its decoded value is an
integer (`Number.isInteger`), and `f32` only when it has a fractional
part. -/
theorem c10_literal_typed_by_value :
    Lexer.lex "1.0" = .ok [⟨.FLOAT, "1.0", .num ⟨10, 10⟩, 1, 1⟩,
      ⟨.EOF, "", .null, 1, 4⟩] ∧
    (∀ (f : Nat) (st : Checker.CState),
      Checker.evalE (f + 1) (Expr.literal (.num ⟨10, 10⟩)) st =
        (.ok Checker.i32Type, st)) ∧
    (∀ (v : JsNum) (f : Nat) (st : Checker.CState),
      Checker.evalE (f + 1) (Expr.literal (.num v)) st =
        (.ok (if v.isInt then Checker.i32Type else Checker.f32Type), st)) :=
  ⟨rfl, fun _ _ => rfl, fun _ _ _ => rfl⟩

end Dyego


